import Mathlib

/-!
Verification development for the Aggregation and Resilience Engine of the
cogs187a autograder backend (src/backend/main.py).

The Python functions under study are shallowly embedded as executable Lean
definitions over explicit data:

* Python strings are `List Char` (wrapped in `String` where convenient);
* JSON values (the result of `json.loads`) are the inductive type `JVal`,
  with Python numbers carried as `Rat` plus an `isFloat` flag that records
  whether the value is a Python `float` or `int`;
* fallible Python code (uncaught exceptions) is modelled with `Option` /
  `Except`;
* file writes are modelled as values threaded through explicit state,
  together with a write log that records the order of `json.dump` calls.

Known, documented modelling limits (none of the theorems below depend on
them): `json.loads` constants `NaN`/`Infinity` are rejected by the embedded
parser, `\uXXXX` escapes are decoded without surrogate pairing, CPython
set-iteration order (used only inside free-text rationale strings) is
replaced by first-occurrence order, and Python float arithmetic is modelled
by exact rationals (all numbers reaching arithmetic in the studied code are
decimal literals, which are exact in both models up to double rounding that
the studied values do not exercise).
-/

/-! ## Python string primitives (on `List Char`) -/

/-- Whitespace characters stripped by Python `str.strip()` (ASCII subset). -/
def pySpaceChar (c : Char) : Bool :=
  c = ' ' || c = '\t' || c = '\n' || c = '\r' || c = '\x0b' || c = '\x0c'

def pyLStripL (s : List Char) : List Char := s.dropWhile pySpaceChar

def pyRStripL (s : List Char) : List Char := (s.reverse.dropWhile pySpaceChar).reverse

def pyStripL (s : List Char) : List Char := pyRStripL (pyLStripL s)

/-- Python `str.startswith`. -/
def startsWithL (pre s : List Char) : Bool := pre.isPrefixOf s

/-- Python `str.endswith`. -/
def endsWithL (suf s : List Char) : Bool := suf.reverse.isPrefixOf s.reverse

/-- Python `s.count(c)` for a single character. -/
def countCharL (c : Char) (s : List Char) : Nat := (s.filter (· = c)).length

/-- Auxiliary scanner for `countSubL`, fuelled by the remaining length. -/
def countSubAux (sub : List Char) : Nat → List Char → Nat
  | 0, _ => 0
  | _, [] => 0
  | fuel + 1, c :: rest =>
    if sub.isPrefixOf (c :: rest) then
      1 + countSubAux sub fuel ((c :: rest).drop sub.length)
    else
      countSubAux sub fuel rest

/-- Python `s.count(sub)` for a non-empty `sub` (non-overlapping, left to right). -/
def countSubL (sub s : List Char) : Nat := countSubAux sub s.length s

/-- Auxiliary scanner for `findSubL`. -/
def findSubAux (sub : List Char) : Nat → Nat → List Char → Option Nat
  | 0, _, _ => none
  | _, i, [] => if sub = [] then some i else none
  | fuel + 1, i, c :: rest =>
    if sub.isPrefixOf (c :: rest) then some i
    else findSubAux sub fuel (i + 1) rest

/-- Python `s.find(sub)` returning `none` instead of `-1`. -/
def findSubL (sub s : List Char) : Option Nat := findSubAux sub (s.length + 1) 0 s

/-- Python `s.find(c)` for a single character. -/
def findCharL (c : Char) (s : List Char) : Option Nat := findSubL [c] s

/-- Python `s.rfind(c)` for a single character, `none` instead of `-1`. -/
def rfindCharL (c : Char) (s : List Char) : Option Nat :=
  match findCharL c s.reverse with
  | none => none
  | some i => some (s.length - 1 - i)

/-- Python `s.split(sep)[0]` for a single-character separator. -/
def beforeCharL (sep : Char) (s : List Char) : List Char := s.takeWhile (· ≠ sep)

/-- Python `s.replace(c, "")` for a single character: drop every occurrence. -/
def removeCharL (c : Char) (s : List Char) : List Char := s.filter (· ≠ c)

/-- Python `'x' * n` where a non-positive `n` yields the empty string. -/
def pyRepeatL (c : Char) (n : Int) : List Char := List.replicate n.toNat c

def isAsciiDigit (c : Char) : Bool := '0' ≤ c && c ≤ '9'

def digitVal (c : Char) : Nat := c.toNat - '0'.toNat

def digitsToNat (ds : List Char) : Nat := ds.foldl (fun a c => a * 10 + digitVal c) 0

/-- Powers of ten by structural recursion (kernel-reducible, unlike the
generic monoid power instances). -/
def pow10 : Nat → Nat
  | 0 => 1
  | n + 1 => 10 * pow10 n

/-- Python `int(s)` on a string: optional surrounding whitespace, optional
sign, one or more ASCII digits (digit-group underscores are not modelled;
no call site below can receive them). -/
def pyIntL (s : List Char) : Option Int :=
  let t := pyStripL s
  let core : List Char × Bool :=
    match t with
    | '-' :: rest => (rest, true)
    | '+' :: rest => (rest, false)
    | _ => (t, false)
  if core.1 ≠ [] && core.1.all isAsciiDigit then
    some (if core.2 then -(digitsToNat core.1 : Int) else (digitsToNat core.1 : Int))
  else none

/-- Python `s.isdigit()` (ASCII digits only). -/
def pyIsDigitL (s : List Char) : Bool := s ≠ [] && s.all isAsciiDigit

/-- Format a natural number padded with leading zeros to width `w`
(Python `f"{n:0wd}"` for non-negative `n`). -/
def natPad (w n : Nat) : List Char :=
  let ds := (toString n).toList
  List.replicate (w - ds.length) '0' ++ ds

/-- Python `f"{n:02d}"` on an `Int` (negative numbers keep the sign in front). -/
def intPad2 (n : Int) : List Char :=
  if n < 0 then '-' :: natPad 2 (-n).toNat else natPad 2 n.toNat

/-- Python `f"{n:03d}"` on a `Nat`. -/
def natPad3 (n : Nat) : List Char := natPad 3 n

/-- Python `", ".join`-style concatenation with a separator. -/
def joinSepL (sep : List Char) : List (List Char) → List Char
  | [] => []
  | [x] => x
  | x :: xs => x ++ sep ++ joinSepL sep xs

/-- Append an element to a list unless already present (models `set.add`
with first-insertion order retained for later sorting). -/
def dedupAppend (x : List Char) (xs : List (List Char)) : List (List Char) :=
  if xs.contains x then xs else xs ++ [x]

/-- Code-point lexicographic strict order on character lists (Python string `<`). -/
def lexLt : List Char → List Char → Bool
  | [], [] => false
  | [], _ :: _ => true
  | _ :: _, [] => false
  | a :: as, b :: bs => if a.toNat < b.toNat then true
    else if b.toNat < a.toNat then false
    else lexLt as bs

/-- Insert into a lexicographically sorted list (stable, after equals). -/
def insSorted (x : List Char) : List (List Char) → List (List Char)
  | [] => [x]
  | y :: ys => if lexLt x y then x :: y :: ys else y :: insSorted x ys

/-- Python `sorted` on a list of strings (insertion sort; stable, and for
distinct elements it agrees with any comparison sort). -/
def pySortedL (xs : List (List Char)) : List (List Char) := xs.foldl (fun acc x => insSorted x acc) []

/-! ## JSON values (`json.loads` results) -/

/-- A parsed JSON value as produced by Python `json.loads`. Numbers carry a
flag distinguishing Python `float` from `int`, plus their exact rational
value (every JSON numeral is a decimal and hence exactly representable). -/
inductive JVal where
  | null : JVal
  | bool (b : Bool) : JVal
  | num (isFloat : Bool) (q : Rat) : JVal
  | str (s : String) : JVal
  | arr (elems : List JVal) : JVal
  | obj (fields : List (String × JVal)) : JVal
  deriving Repr

mutual
def jeq : JVal → JVal → Bool
  | .null, .null => true
  | .bool a, .bool b => a == b
  | .num f p, .num g q => f == g && p == q
  | .str a, .str b => a == b
  | .arr a, .arr b => jeqL a b
  | .obj a, .obj b => jeqO a b
  | _, _ => false

def jeqL : List JVal → List JVal → Bool
  | [], [] => true
  | x :: xs, y :: ys => jeq x y && jeqL xs ys
  | _, _ => false

def jeqO : List (String × JVal) → List (String × JVal) → Bool
  | [], [] => true
  | (k, v) :: xs, (l, w) :: ys => k == l && jeq v w && jeqO xs ys
  | _, _ => false
end

mutual
/-- Collapse Python numeric cross-type equality: `True == 1`, `7 == 7.0`. -/
def canonJ : JVal → JVal
  | .null => .null
  | .bool b => .num false (if b then 1 else 0)
  | .num _ q => .num false q
  | .str s => .str s
  | .arr xs => .arr (canonL xs)
  | .obj fs => .obj (canonO fs)

def canonL : List JVal → List JVal
  | [] => []
  | x :: xs => canonJ x :: canonL xs

def canonO : List (String × JVal) → List (String × JVal)
  | [] => []
  | (k, v) :: xs => (k, canonJ v) :: canonO xs
end

/-- Python `==` on JSON-shaped values. -/
def pyEq (a b : JVal) : Bool := jeq (canonJ a) (canonJ b)

/-- Python truthiness of a JSON-shaped value. -/
def pyTruthy : JVal → Bool
  | .null => false
  | .bool b => b
  | .num _ q => q != 0
  | .str s => s != ""
  | .arr xs => !xs.isEmpty
  | .obj fs => !fs.isEmpty

/-- Truthiness of an optional value (absent behaves like a false branch). -/
def pyTruthyO : Option JVal → Bool
  | none => false
  | some v => pyTruthy v

/-- Python `d.get(k)` on an object field list (first binding; the parser
below keeps keys unique). -/
def objGet (k : String) : List (String × JVal) → Option JVal
  | [] => none
  | (l, v) :: rest => if l = k then some v else objGet k rest

/-- Python `k in d`. -/
def objHas (k : String) (fs : List (String × JVal)) : Bool := (objGet k fs).isSome

/-- Python `d.get(k, dflt)`. -/
def objGetD (k : String) (fs : List (String × JVal)) (dflt : JVal) : JVal :=
  (objGet k fs).getD dflt

/-- Python `d[k] = v`: update in place keeping the original key position,
else append (CPython dict insertion-order semantics). -/
def objSet (k : String) (v : JVal) : List (String × JVal) → List (String × JVal)
  | [] => [(k, v)]
  | (l, w) :: rest => if l = k then (l, v) :: rest else (l, w) :: objSet k v rest

/-- Python `del d[k]` (removes the first binding, if any). -/
def objDel (k : String) : List (String × JVal) → List (String × JVal)
  | [] => []
  | (l, w) :: rest => if l = k then rest else (l, w) :: objDel k rest

/-- Top-level key list of an object value (empty for non-objects). -/
def topKeys : JVal → List String
  | .obj fs => fs.map Prod.fst
  | _ => []

/-! ## The embedded `json.loads` -/

/-- JSON whitespace. -/
def jsonWs (c : Char) : Bool := c = ' ' || c = '\t' || c = '\n' || c = '\r'

def skipJsonWs (s : List Char) : List Char := s.dropWhile jsonWs

def isHexDigit (c : Char) : Bool :=
  isAsciiDigit c || ('a' ≤ c && c ≤ 'f') || ('A' ≤ c && c ≤ 'F')

def hexVal (c : Char) : Nat :=
  if isAsciiDigit c then digitVal c
  else if 'a' ≤ c && c ≤ 'f' then c.toNat - 'a'.toNat + 10
  else c.toNat - 'A'.toNat + 10

/-- Parse the body of a JSON string after the opening quote, returning the
accumulated characters and the remaining input after the closing quote. -/
def parseJStr : Nat → List Char → Option (List Char × List Char)
  | 0, _ => none
  | _, [] => none
  | fuel + 1, c :: rest =>
    if c = '"' then some ([], rest)
    else if c = '\\' then
      match rest with
      | [] => none
      | e :: rest2 =>
        let dec : Option (Char × List Char) :=
          if e = '"' then some ('"', rest2)
          else if e = '\\' then some ('\\', rest2)
          else if e = '/' then some ('/', rest2)
          else if e = 'b' then some ('\x08', rest2)
          else if e = 'f' then some ('\x0c', rest2)
          else if e = 'n' then some ('\n', rest2)
          else if e = 'r' then some ('\r', rest2)
          else if e = 't' then some ('\t', rest2)
          else if e = 'u' then
            match rest2 with
            | h1 :: h2 :: h3 :: h4 :: rest3 =>
              if isHexDigit h1 && isHexDigit h2 && isHexDigit h3 && isHexDigit h4 then
                some (Char.ofNat (((hexVal h1 * 16 + hexVal h2) * 16 + hexVal h3) * 16 + hexVal h4), rest3)
              else none
            | _ => none
          else none
        match dec with
        | none => none
        | some (ch, rest3) =>
          match parseJStr fuel rest3 with
          | none => none
          | some (cs, rem) => some (ch :: cs, rem)
    else if c.toNat < 0x20 then none
    else
      match parseJStr fuel rest with
      | none => none
      | some (cs, rem) => some (c :: cs, rem)

/-- Parse a JSON numeral (strict grammar, as Python json): optional minus,
integer part without leading zeros, optional fraction, optional exponent. -/
def parseJNum (s : List Char) : Option (JVal × List Char) :=
  let (neg, s1) : Bool × List Char :=
    match s with
    | '-' :: rest => (true, rest)
    | _ => (false, s)
  let ipart := s1.takeWhile isAsciiDigit
  let s2 := s1.drop ipart.length
  if ipart = [] then none
  else if ipart.length > 1 && ipart.headD '0' = '0' then none
  else
    let (fpart, s3) : List Char × List Char :=
      match s2 with
      | '.' :: rest =>
        let ds := rest.takeWhile isAsciiDigit
        (ds, rest.drop ds.length)
      | _ => ([], s2)
    if s2 ≠ s3 && fpart = [] then none
    else
      let hasFrac := s2 ≠ s3
      let expRes : Option (Int × List Char × Bool) :=
        match s3 with
        | e :: rest =>
          if e = 'e' || e = 'E' then
            let (esign, rest2) : Bool × List Char :=
              match rest with
              | '-' :: r => (true, r)
              | '+' :: r => (false, r)
              | _ => (false, rest)
            let eds := rest2.takeWhile isAsciiDigit
            if eds = [] then none
            else some ((if esign then -(digitsToNat eds : Int) else (digitsToNat eds : Int)),
                       rest2.drop eds.length, true)
          else some (0, s3, false)
        | [] => some (0, s3, false)
      match expRes with
      | none => none
      | some (ex, rem, hasExp) =>
        let mant : Int := (digitsToNat (ipart ++ fpart) : Int)
        let mant := if neg then -mant else mant
        let scale : Int := ex - (fpart.length : Int)
        let q : Rat :=
          if scale ≥ 0 then mkRat (mant * (pow10 scale.toNat : Int)) 1
          else mkRat mant (pow10 (-scale).toNat)
        some (.num (hasFrac || hasExp) q, rem)

mutual
/-- Recursive-descent JSON value parse; returns the value and remaining input. -/
def parseJVal : Nat → List Char → Option (JVal × List Char)
  | 0, _ => none
  | fuel + 1, s =>
    match skipJsonWs s with
    | [] => none
    | c :: rest =>
      if c = '\x7b' then
        match skipJsonWs rest with
        | '\x7d' :: rem => some (.obj [], rem)
        | _ => match parseJMembers fuel rest [] with
          | none => none
          | some (fs, rem) => some (.obj fs, rem)
      else if c = '[' then
        match skipJsonWs rest with
        | ']' :: rem => some (.arr [], rem)
        | _ => match parseJElems fuel rest [] with
          | none => none
          | some (xs, rem) => some (.arr xs, rem)
      else if c = '"' then
        match parseJStr (rest.length + 1) rest with
        | none => none
        | some (cs, rem) => some (.str (String.mk cs), rem)
      else if startsWithL ['t', 'r', 'u', 'e'] (c :: rest) then
        some (.bool true, (c :: rest).drop 4)
      else if startsWithL ['f', 'a', 'l', 's', 'e'] (c :: rest) then
        some (.bool false, (c :: rest).drop 5)
      else if startsWithL ['n', 'u', 'l', 'l'] (c :: rest) then
        some (.null, (c :: rest).drop 4)
      else parseJNum (c :: rest)

/-- Parse one or more `"key": value` members followed by `}`. -/
def parseJMembers : Nat → List Char → List (String × JVal) → Option (List (String × JVal) × List Char)
  | 0, _, _ => none
  | fuel + 1, s, acc =>
    match skipJsonWs s with
    | '"' :: rest =>
      match parseJStr (rest.length + 1) rest with
      | none => none
      | some (kcs, rem) =>
        match skipJsonWs rem with
        | ':' :: rem2 =>
          match parseJVal fuel rem2 with
          | none => none
          | some (v, rem3) =>
            let acc := if objHas (String.mk kcs) acc
              then objSet (String.mk kcs) v acc
              else acc ++ [(String.mk kcs, v)]
            match skipJsonWs rem3 with
            | ',' :: rem4 => parseJMembers fuel rem4 acc
            | '\x7d' :: rem4 => some (acc, rem4)
            | _ => none
        | _ => none
    | _ => none

/-- Parse one or more array elements followed by `]`. -/
def parseJElems : Nat → List Char → List JVal → Option (List JVal × List Char)
  | 0, _, _ => none
  | fuel + 1, s, acc =>
    match parseJVal fuel s with
    | none => none
    | some (v, rem) =>
      match skipJsonWs rem with
      | ',' :: rem2 => parseJElems fuel rem2 (acc ++ [v])
      | ']' :: rem2 => some (acc ++ [v], rem2)
      | _ => none
end

/-- The embedded Python `json.loads` on a character list: a full-input parse
(`NaN`/`Infinity` constants are not modelled and parse as failures). -/
def jsonLoadsL (s : List Char) : Option JVal :=
  match parseJVal (4 * s.length + 8) s with
  | none => none
  | some (v, rem) => if skipJsonWs rem = [] then some v else none

def jsonLoads (s : String) : Option JVal := jsonLoadsL s.toList

/-! ## fix_incomplete_json (src/backend/main.py lines 127-177) -/

/-- Match `\s*close` at the head of the input, returning the remainder after
`close` (the unique way `\s*` can be completed before a non-space literal). -/
def dropWsThenClose (close : Char) : List Char → Option (List Char)
  | [] => none
  | x :: xs => if x = close then some xs
    else if pySpaceChar x then dropWsThenClose close xs
    else none

/-- Fuelled worker for `re.sub(r",\s*close", close, s)`. -/
def reSubAux (close : Char) : Nat → List Char → List Char
  | 0, s => s
  | _, [] => []
  | fuel + 1, c :: rest =>
    if c = ',' then
      match dropWsThenClose close rest with
      | some rem => close :: reSubAux close fuel rem
      | none => c :: reSubAux close fuel rest
    else c :: reSubAux close fuel rest

/-- Python `re.sub(r",\s*}", "}", s)` (and the `]` variant): every
non-overlapping, left-to-right match of a comma, optional whitespace and the
closing character collapses to the closing character. -/
def reSubCommaClose (close : Char) (s : List Char) : List Char := reSubAux close s.length s

/-- Scanner deciding whether `,\s*close` matches anywhere in the input. -/
def hasCommaWsClose (close : Char) : List Char → Bool
  | [] => false
  | c :: rest =>
    (c = ',' && (dropWsThenClose close rest).isSome) || hasCommaWsClose close rest

/-- Lines 132-134: prepend an opening brace when the stripped input does not
start with one. -/
def fixPrependBrace (s0 : List Char) : List Char :=
  if startsWithL ['\x7b'] (pyStripL s0) then s0 else '\x7b' :: pyLStripL s0

/-- Lines 136-145: append missing closing brackets, then missing closing
braces, from raw character counts. -/
def fixCloseBrackets (s1 : List Char) : List Char :=
  s1 ++ pyRepeatL ']' ((countCharL '[' s1 : Int) - countCharL ']' s1)
     ++ pyRepeatL '\x7d' ((countCharL '\x7b' s1 : Int) - countCharL '\x7d' s1)

/-- Lines 149-171: on a right-stripped string that does not end in a closer,
close an odd unescaped quote and a dangling value. -/
def fixQuoteStep (s3 : List Char) : List Char :=
  if !s3.isEmpty && !(s3.getLastD ' ' = '\x7d' || s3.getLastD ' ' = ']') then
    let unescapedQuotes := countCharL '"' s3 - countSubL ['\\', '"'] s3
    let t1 := if unescapedQuotes % 2 ≠ 0 then s3 ++ ['"'] else s3
    let r1 := pyRStripL t1
    if !(endsWithL ['\x7d'] r1 || endsWithL [']'] r1 || endsWithL ['"'] r1) then
      let t2 := if endsWithL [','] r1 then r1.dropLast else t1
      let r2 := pyRStripL t2
      -- the default below models the index `[-1]` on a provably non-empty string
      if !(r2.getLastD '\x7d' = '\x7d' || r2.getLastD '\x7d' = ']') then
        (if countCharL '"' t2 > 0 then t2 ++ ['"'] else t2) ++ ['\x7d']
      else t2
    else t1
  else s3

/-- Embedding of `fix_incomplete_json` (main.py 127-177): close brackets
before braces from raw character counts, close an odd unescaped quote, strip
a dangling comma, and collapse trailing commas before closers. -/
def fixIncompleteJsonL (s0 : List Char) : List Char :=
  if s0.isEmpty || (pyStripL s0).isEmpty then ['\x7b', '\x7d']
  else
    reSubCommaClose ']' (reSubCommaClose '\x7d'
      (fixQuoteStep (pyRStripL (fixCloseBrackets (fixPrependBrace s0)))))

def fixIncompleteJson (s : String) : String := String.mk (fixIncompleteJsonL s.toList)

lemma reSubAux_eq_self (close : Char) :
    ∀ (fuel : Nat) (s : List Char), hasCommaWsClose close s = false →
      reSubAux close fuel s = s := by
  intro fuel
  induction fuel with
  | zero => intro s _; cases s <;> rfl
  | succ n ih =>
    intro s hs
    cases s with
    | nil => rfl
    | cons c rest =>
      simp only [hasCommaWsClose, Bool.or_eq_false_iff, Bool.and_eq_false_iff] at hs
      obtain ⟨h1, h2⟩ := hs
      simp only [reSubAux]
      by_cases hc : c = ','
      · rcases h1 with h1 | h1
        · exact absurd h1 (by simp [hc])
        · cases hd : dropWsThenClose close rest with
          | some rem => rw [hd] at h1; simp at h1
          | none => simp [if_pos hc, hd, ih rest h2]
      · simp [if_neg hc, ih rest h2]

lemma reSubCommaClose_eq_self (close : Char) (s : List Char)
    (h : hasCommaWsClose close s = false) : reSubCommaClose close s = s :=
  reSubAux_eq_self close s.length s h

/-- C10. The claim says repair is the identity on every already-valid input.
It is not: the valid JSON object text `{"a": "{"}` contains a brace inside a
string literal, so the raw brace counts are unbalanced and
`fix_incomplete_json` appends a closing brace, changing (and breaking) the
text. -/
theorem C10_repair_not_identity_on_valid_json :
    (jsonLoads "\x7b\"a\": \"\x7b\"\x7d").isSome = true ∧
      fixIncompleteJson "\x7b\"a\": \"\x7b\"\x7d" ≠ "\x7b\"a\": \"\x7b\"\x7d" := by
  constructor
  · rfl
  · decide

/-- C10 (amended). Repair is the identity on already-valid input that starts
with an opening brace (after stripping), has balanced raw brace and bracket
character counts (in particular no unmatched brace or bracket characters
inside string literals), carries no trailing whitespace, ends in a closing
brace or bracket, and contains no comma followed only by whitespace before a
closing brace or bracket. -/
theorem C10_repair_identity_amended (s : List Char)
    (_hv : (jsonLoadsL s).isSome = true)
    (hS : startsWithL ['\x7b'] (pyStripL s) = true)
    (hb : countCharL '\x7b' s = countCharL '\x7d' s)
    (hk : countCharL '[' s = countCharL ']' s)
    (hr : pyRStripL s = s)
    (hl : (s.getLastD ' ' = '\x7d' || s.getLastD ' ' = ']') = true)
    (h1 : hasCommaWsClose '\x7d' s = false)
    (h2 : hasCommaWsClose ']' s = false) :
    fixIncompleteJsonL s = s := by
  have hns : pyStripL s ≠ [] := by
    intro h; rw [h] at hS; simp [startsWithL] at hS
  have hs0 : s ≠ [] := by
    intro h; apply hns; rw [h]; rfl
  have e1 : s.isEmpty = false := by
    cases s with
    | nil => exact absurd rfl hs0
    | cons a l => rfl
  have e2 : (pyStripL s).isEmpty = false := by
    cases hps : pyStripL s with
    | nil => exact absurd hps hns
    | cons a l => rfl
  have A : fixPrependBrace s = s := by simp [fixPrependBrace, hS]
  have B : fixCloseBrackets s = s := by
    simp [fixCloseBrackets, hb, hk, pyRepeatL]
  have C : fixQuoteStep s = s := by
    simp only [fixQuoteStep, hl, Bool.not_true, Bool.and_false]
    rfl
  rw [fixIncompleteJsonL, e1, e2]
  simp only [Bool.or_self, Bool.false_or, if_neg (Bool.false_ne_true)]
  rw [A, B, hr, C, reSubCommaClose_eq_self '\x7d' s h1, reSubCommaClose_eq_self ']' s h2]

/-- C10 witness: the amended identity theorem applied to the concrete valid
object text `{"a": 1}`. -/
theorem C10_repair_identity_witness :
    fixIncompleteJsonL ("\x7b\"a\": 1\x7d".toList) = "\x7b\"a\": 1\x7d".toList :=
  C10_repair_identity_amended ("\x7b\"a\": 1\x7d".toList) (by decide) (by decide)
    (by decide) (by decide) (by decide) (by decide) (by decide) (by decide)

/-! ## Minimum-rule scoring mode (C6) -/

/-- Minimum of a non-empty integer list (head seed, as Python `min`). -/
def minList : List Int → Int
  | [] => 0
  | x :: xs => xs.foldl min x

/-- Modelled from the spec: the minimum-rule scoring mode of spec section 4.4
has no Python implementation in src/; in the repository it exists only as
grading-prompt pseudocode executed by the external grading oracle
(`DEFAULT_REFINED_PROMPT`, main.py lines 3724-3729 and 3744-3752, and the
fallback prompt lines 1396-1415). This definition follows that pseudocode:
with accumulated per-page scores present, award the maximum when every page
scored the maximum, otherwise the minimum page score; with no accumulated
scores the dimension scores zero. -/
def finalScoreMinRule (maxPts : Int) (pageScores : List Int) : Int :=
  if pageScores.length > 0 then
    if pageScores.all (· == maxPts) then maxPts
    else minList pageScores
  else 0

lemma foldl_min_mem : ∀ (xs : List Int) (x : Int), xs.foldl min x ∈ x :: xs := by
  intro xs
  induction xs with
  | nil => intro x; simp
  | cons y ys ih =>
    intro x
    rcases List.mem_cons.mp (ih (min x y)) with h | h
    · have he : List.foldl min x (y :: ys) = min x y := by
        simpa [List.foldl_cons] using h
      rcases le_total x y with hxy | hxy
      · rw [he, min_eq_left hxy]; exact List.mem_cons_self _ _
      · rw [he, min_eq_right hxy]
        exact List.mem_cons.mpr (Or.inr (List.mem_cons_self _ _))
    · have he : List.foldl min x (y :: ys) ∈ ys := by
        simpa [List.foldl_cons] using h
      exact List.mem_cons.mpr (Or.inr (List.mem_cons.mpr (Or.inr he)))

lemma foldl_min_le : ∀ (xs : List Int) (x s : Int), s ∈ x :: xs → xs.foldl min x ≤ s := by
  intro xs
  induction xs with
  | nil =>
    intro x s hs
    simp only [List.mem_singleton] at hs
    simp [hs]
  | cons y ys ih =>
    intro x s hs
    have hmin : (y :: ys).foldl min x ≤ min x y := by
      simpa [List.foldl_cons] using ih (min x y) (min x y) (List.mem_cons_self _ _)
    rcases List.mem_cons.mp hs with h | h
    · rw [h]; exact le_trans hmin (min_le_left _ _)
    · rcases List.mem_cons.mp h with h | h
      · rw [h]; exact le_trans hmin (min_le_right _ _)
      · simpa [List.foldl_cons] using ih (min x y) s (List.mem_cons.mpr (Or.inr h))

/-- C6. In minimum-rule mode, for a non-empty recorded score list the final
dimension score is a recorded score and a lower bound of all recorded scores
(hence their minimum); when every recorded score equals the maximum the
maximum is awarded; in particular [20,20,15] scores 15 and [20,20,20]
scores 20. -/
theorem C6_minimum_rule (maxPts : Int) (scores : List Int) (h : scores ≠ []) :
    (finalScoreMinRule maxPts scores ∈ scores ∧
      ∀ s ∈ scores, finalScoreMinRule maxPts scores ≤ s) ∧
    ((∀ s ∈ scores, s = maxPts) → finalScoreMinRule maxPts scores = maxPts) ∧
    finalScoreMinRule 20 [20, 20, 15] = 15 ∧
    finalScoreMinRule 20 [20, 20, 20] = 20 := by
  cases scores with
  | nil => exact absurd rfl h
  | cons x xs =>
    have hlen : (x :: xs).length > 0 := by simp
    refine ⟨?_, ?_, by decide, by decide⟩
    · by_cases hall : ((x :: xs).all (· == maxPts)) = true
      · have hx : x = maxPts := by
          simpa using List.all_eq_true.mp hall x (List.mem_cons_self _ _)
        have hv : finalScoreMinRule maxPts (x :: xs) = maxPts := by
          rw [finalScoreMinRule, if_pos hlen, if_pos hall]
        refine ⟨by rw [hv, ← hx]; exact List.mem_cons_self _ _, ?_⟩
        intro s hs
        have hsm : s = maxPts := by simpa using List.all_eq_true.mp hall s hs
        rw [hv, hsm]
      · have hv : finalScoreMinRule maxPts (x :: xs) = minList (x :: xs) := by
          rw [finalScoreMinRule, if_pos hlen, if_neg hall]
        refine ⟨by rw [hv]; exact foldl_min_mem xs x, ?_⟩
        intro s hs
        rw [hv]
        exact foldl_min_le xs x s hs
    · intro hall
      have hb : ((x :: xs).all (· == maxPts)) = true :=
        List.all_eq_true.mpr (fun s hs => by simpa using hall s hs)
      rw [finalScoreMinRule, if_pos hlen, if_pos hb]

/-- C6 witness: the minimum-rule theorem applied to the concrete recorded
score list [20,20,15]. -/
theorem C6_minimum_rule_witness :
    (finalScoreMinRule 20 [20, 20, 15] ∈ ([20, 20, 15] : List Int) ∧
      ∀ s ∈ ([20, 20, 15] : List Int), finalScoreMinRule 20 [20, 20, 15] ≤ s) ∧
    ((∀ s ∈ ([20, 20, 15] : List Int), s = 20) → finalScoreMinRule 20 [20, 20, 15] = 20) ∧
    finalScoreMinRule 20 [20, 20, 15] = 15 ∧
    finalScoreMinRule 20 [20, 20, 20] = 20 := by
  exact C6_minimum_rule 20 [20, 20, 15] (by decide)

/-! ## calculate_grading_scores, coverage component (C4) -/

/-- The per-issue data read by the coverage computation of
`calculate_grading_scores` (main.py 1085-1101): only the optional
`heuristic_id` entry of each issue dict is consulted. -/
structure CGIssue where
  heuristic_id : Option String
  deriving Repr, DecidableEq

/-- Lines 1086-1089: the set of heuristic ids over all issues, keeping ids
that are truthy (present and non-empty) and do not start with "Hx"
(first-insertion order; only the cardinality is consumed). -/
def coverageUnique (issues : List CGIssue) : List String :=
  issues.foldl (fun acc i =>
    match i.heuristic_id with
    | some hid =>
      if hid ≠ "" && !(startsWithL ['H', 'x'] hid.toList) then
        if acc.contains hid then acc else acc ++ [hid]
      else acc
    | none => acc) []

/-- Embedding of the coverage component of `calculate_grading_scores`
(main.py 1069-1101): zero when pages or issues are empty (the early return
of line 1082 keeps the initialised zero), otherwise 15 with staged
deductions, floored at zero. Pages enter this component only through the
emptiness guard. -/
def calculateCoveragePoints (pages : List JVal) (issues : List CGIssue) : Int :=
  if pages.isEmpty || issues.isEmpty then 0
  else
    let d := (coverageUnique issues).length
    let s1 : Int := if d < 10 then 15 - 5 else 15
    let s2 : Int := if issues.length < 12 then s1 - 5 else s1
    let s3 : Int := if d < 8 then s2 - 2 else s2
    let s4 : Int := if issues.length < 10 then s3 - 2 else s3
    max 0 s4

lemma coverageUnique_aux_nodup (issues : List CGIssue) :
    ∀ acc : List String, acc.Nodup →
      (issues.foldl (fun acc i =>
        match i.heuristic_id with
        | some hid =>
          if hid ≠ "" && !(startsWithL ['H', 'x'] hid.toList) then
            if acc.contains hid then acc else acc ++ [hid]
          else acc
        | none => acc) acc).Nodup := by
  induction issues with
  | nil => intro acc h; exact h
  | cons i rest ih =>
    intro acc h
    simp only [List.foldl_cons]
    apply ih
    cases hi : i.heuristic_id with
    | none => simp only [hi]; exact h
    | some hid =>
      simp only [hi]
      by_cases hc : (hid ≠ "" && !(startsWithL ['H', 'x'] hid.toList)) = true
      · rw [if_pos hc]
        by_cases hm : acc.contains hid = true
        · rw [if_pos hm]; exact h
        · rw [if_neg hm]
          have hnm : hid ∉ acc := by
            intro hmem
            exact hm (by simpa using hmem)
          simp [List.nodup_append, h, hnm]
      · rw [if_neg hc]; exact h

/-- The heuristic-id set accumulated by the coverage computation has no
duplicates, so its length is the number of distinct valid heuristic ids. -/
lemma coverageUnique_nodup (issues : List CGIssue) : (coverageUnique issues).Nodup :=
  coverageUnique_aux_nodup issues [] List.nodup_nil

/-- C4. With non-empty pages and issues, the coverage component equals 15
minus 5 when fewer than 10 distinct valid heuristics are covered, minus 5
when fewer than 12 issues exist, minus 2 more when fewer than 8 distinct
heuristics, minus 2 more when fewer than 10 issues, floored at zero; the
counted collection is duplicate-free; 10 distinct heuristics with 12 issues
give 15, and 7 distinct heuristics with 9 issues give 1. -/
theorem C4_coverage_formula (pages : List JVal) (issues : List CGIssue)
    (hp : pages ≠ []) (hi : issues ≠ []) :
    (coverageUnique issues).Nodup ∧
    calculateCoveragePoints pages issues =
      max 0 (15 - (if (coverageUnique issues).length < 10 then 5 else 0)
                - (if issues.length < 12 then 5 else 0)
                - (if (coverageUnique issues).length < 8 then 2 else 0)
                - (if issues.length < 10 then 2 else 0)) ∧
    ((coverageUnique issues).length = 10 → issues.length = 12 →
      calculateCoveragePoints pages issues = 15) ∧
    ((coverageUnique issues).length = 7 → issues.length = 9 →
      calculateCoveragePoints pages issues = 1) := by
  have hpe : pages.isEmpty = false := by
    cases pages with
    | nil => exact absurd rfl hp
    | cons a l => rfl
  have hie : issues.isEmpty = false := by
    cases issues with
    | nil => exact absurd rfl hi
    | cons a l => rfl
  have hguard : (pages.isEmpty || issues.isEmpty) = false := by rw [hpe, hie]; rfl
  have hform : calculateCoveragePoints pages issues =
      max 0 (15 - (if (coverageUnique issues).length < 10 then 5 else 0)
                - (if issues.length < 12 then 5 else 0)
                - (if (coverageUnique issues).length < 8 then 2 else 0)
                - (if issues.length < 10 then 2 else 0)) := by
    rw [calculateCoveragePoints, hguard]
    simp only [Bool.false_eq_true, if_false]
    split_ifs <;> ring_nf
  refine ⟨coverageUnique_nodup issues, hform, ?_, ?_⟩
  · intro hd hn
    rw [hform, hd, hn]
    norm_num
  · intro hd hn
    rw [hform, hd, hn]
    norm_num

/-- Twelve issues covering all ten heuristics (two heuristics repeat). -/
def C4demoIssues : List CGIssue :=
  [⟨some "H1"⟩, ⟨some "H2"⟩, ⟨some "H3"⟩, ⟨some "H4"⟩, ⟨some "H5"⟩, ⟨some "H6"⟩,
   ⟨some "H7"⟩, ⟨some "H8"⟩, ⟨some "H9"⟩, ⟨some "H10"⟩, ⟨some "H1"⟩, ⟨some "H2"⟩]

/-- C4 witness: the coverage theorem applied to one page and the twelve demo
issues (ten distinct heuristics, twelve issues, hence 15/15). -/
theorem C4_coverage_formula_witness :
    (coverageUnique C4demoIssues).Nodup ∧
    calculateCoveragePoints [JVal.null] C4demoIssues =
      max 0 (15 - (if (coverageUnique C4demoIssues).length < 10 then 5 else 0)
                - (if C4demoIssues.length < 12 then 5 else 0)
                - (if (coverageUnique C4demoIssues).length < 8 then 2 else 0)
                - (if C4demoIssues.length < 10 then 2 else 0)) ∧
    ((coverageUnique C4demoIssues).length = 10 → C4demoIssues.length = 12 →
      calculateCoveragePoints [JVal.null] C4demoIssues = 15) ∧
    ((coverageUnique C4demoIssues).length = 7 → C4demoIssues.length = 9 →
      calculateCoveragePoints [JVal.null] C4demoIssues = 1) := by
  exact C4_coverage_formula [JVal.null] C4demoIssues (by simp) (by simp [C4demoIssues])

/-! ## aggregate_issues (main.py 3980-4134), claims C2 and C9 -/

/-- The fragment entries read by `aggregate_issues` (absent dict keys are
`none`; the generating pipeline emits strings for these keys). -/
structure Fragment where
  heuristic_id : Option String
  issue_key : Option String
  text_summary : Option String
  severity_hint : Option String
  deriving Repr, DecidableEq

/-- The page entries read by `aggregate_issues`. -/
structure Page where
  page_role : Option String
  page_id : Option String
  page_number : Option Int
  fragments : List Fragment
  screenshot_cluster_id : Option String
  deriving Repr, DecidableEq

/-- A TA review object (spec data model); any stored review object is a
non-empty dict in Python and hence truthy. -/
structure TaReview where
  final_severity : Option String
  final_issue_score_0_4 : Option Int
  override_reason : Option String
  ta_comment : Option String
  deriving Repr, DecidableEq

/-- An Issue as produced by `aggregate_issues` (main.py 4118-4129). -/
structure Issue where
  issue_id : String
  heuristic_id : String
  issue_key : String
  title : String
  combined_description : String
  pages_involved : List String
  screenshot_cluster_ids : List String
  ai_proposed_severity : String
  ai_severity_rationale : String
  ta_review : Option TaReview
  deriving Repr, DecidableEq

/-- Line 3996: `page.get("page_id", f"p{page.get('page_number', 0):02d}")`. -/
def pageIdOf (p : Page) : String :=
  p.page_id.getD (String.mk ('p' :: intPad2 (p.page_number.getD 0)))

/-- Lines 4016-4028: a fragment heuristic id enters grouping only when it is
truthy, does not start with "Hx", and its digits (after removing every "H"
and "h" character and truncating at the first underscore) parse as an
integer between 1 and 10. There is no canonicalisation: the accepted id is
used in its original spelling. -/
def heuristicAccepted (hid : String) : Bool :=
  if hid = "" || startsWithL ['H', 'x'] hid.toList then false
  else
    match pyIntL (beforeCharL '_' (removeCharL 'h' (removeCharL 'H' hid.toList))) with
    | some n => decide (1 ≤ n) && decide (n ≤ 10)
    | none => false

/-- One grouped fragment with its page context (lines 4037-4041). -/
structure GroupItem where
  fragment : Fragment
  page_id : String
  screenshot_cluster_id : Option String
  deriving Repr, DecidableEq

/-- CPython dict upsert for `fragment_groups` (lines 4033-4041): append to an
existing key in place, else add the new key at the end. -/
def addToGroups (k : String) (item : GroupItem) :
    List (String × List GroupItem) → List (String × List GroupItem)
  | [] => [(k, [item])]
  | (k', items) :: rest =>
    if k' = k then (k', items ++ [item]) :: rest
    else (k', items) :: addToGroups k item rest

/-- Lines 4012-4041: process one fragment of a candidate page. -/
def collectFragStep (p : Page) (groups : List (String × List GroupItem))
    (frag : Fragment) : List (String × List GroupItem) :=
  let hid := frag.heuristic_id.getD ""
  if heuristicAccepted hid then
    addToGroups (hid ++ "::" ++ frag.issue_key.getD "")
      ⟨frag, pageIdOf p, p.screenshot_cluster_id⟩ groups
  else groups

/-- Lines 3994-4041: process one page (skipping fragment-free non-violation
pages, line 4004). -/
def collectPageStep (groups : List (String × List GroupItem)) (p : Page) :
    List (String × List GroupItem) :=
  if p.page_role.getD "other" ≠ "violation_detail" && p.fragments.isEmpty then groups
  else p.fragments.foldl (collectFragStep p) groups

/-- Lines 3992-4041: group accepted fragments of candidate pages by the key
`f"{heuristic_id}::{issue_key}"` built from the original spellings. -/
def collectFragments (pages : List Page) : List (String × List GroupItem) :=
  pages.foldl collectPageStep []

/-- Python `group_key.split("::", 1)` (lines 4052-4054). -/
def splitGroupKey (s : List Char) : List Char × Option (List Char) :=
  match findSubL [':', ':'] s with
  | none => (s, none)
  | some i => (s.take i, some (s.drop (i + 2)))

/-- String-list member add mirroring `set.add` (first-insertion order kept,
the consumer sorts). -/
def dedupAppendS (x : String) (xs : List String) : List String :=
  if xs.contains x then xs else xs ++ [x]

/-- Python `sorted` on strings. -/
def pySortedS (xs : List String) : List String :=
  (pySortedL (xs.map String.toList)).map String.mk

/-- Lines 4058-4074: collect unique page ids, truthy screenshot cluster ids
and surviving fragments of one group, skipping items whose looked-up page
has no fragments. -/
def collectGroupStep (pages : List Page)
    (acc : List String × List String × List Fragment) (item : GroupItem) :
    List String × List String × List Fragment :=
  let originalPage := pages.find? (fun p =>
    p.page_id == some item.page_id ||
      String.mk ('p' :: intPad2 (p.page_number.getD 0)) == item.page_id)
  let skip := match originalPage with
    | some op => op.fragments.isEmpty
    | none => false
  if skip then acc
  else
    (dedupAppendS item.page_id acc.1,
     (match item.screenshot_cluster_id with
      | some c => if c ≠ "" then dedupAppendS c acc.2.1 else acc.2.1
      | none => acc.2.1),
     acc.2.2 ++ [item.fragment])

/-- Lines 4058-4074 (fold wrapper for `collectGroupStep`). -/
def collectGroup (pages : List Page) (items : List GroupItem) :
    List String × List String × List Fragment :=
  items.foldl (collectGroupStep pages) ([], [], [])

/-- Lines 4080-4097: the issue title from the first fragment text summary. -/
def titleOf (firstFrag : Fragment) (hid : String) : String :=
  let titleText := pyStripL (firstFrag.text_summary.getD "").toList
  let firstSentence := pyStripL (beforeCharL '.' titleText)
  if firstSentence ≠ [] && firstSentence.length ≤ 60 then String.mk firstSentence
  else if titleText.length > 60 then
    let truncated := titleText.take 60
    match rfindCharL ' ' truncated with
    | some lastSpace =>
      if lastSpace > 40 then String.mk (truncated.take lastSpace ++ "...".toList)
      else String.mk (truncated ++ "...".toList)
    | none => String.mk (truncated ++ "...".toList)
  else if titleText ≠ [] then String.mk titleText else hid ++ " Issue"

/-- Severity ordinal table of line 4105. -/
def sevVal (s : String) : Int :=
  if s = "minor" then 1 else if s = "major" then 2 else if s = "critical" then 3 else 0

/-- First severity name of a positive ordinal (line 4109 list comprehension
over the fixed three-entry dict). -/
def sevName (v : Int) : String :=
  if v = 1 then "minor" else if v = 2 then "major" else "critical"

/-- Maximum of a non-empty integer list (Python `max`). -/
def maxListI : List Int → Int
  | [] => 0
  | x :: xs => xs.foldl max x

/-- First-occurrence deduplication; stands in for the CPython `set(...)`
iteration of line 4114 whose order is hash-dependent (this choice only
affects the free-text rationale string). -/
def dedupFirst (xs : List String) : List String :=
  xs.foldl (fun acc x => if acc.contains x then acc else acc ++ [x]) []

/-- Lines 4043-4134: convert the collected groups to Issue records with a
run-local counter. -/
def buildIssueStep (pages : List Page) (acc : List Issue × Nat)
    (g : String × List GroupItem) : List Issue × Nat :=
  (if g.2.isEmpty then acc
    else
      let parts := splitGroupKey g.1.toList
      let heuristicId := String.mk parts.1
      let issueKey := match parts.2 with
        | some k => String.mk k
        | none => "issue_" ++ toString acc.2
      let collected := collectGroup pages g.2
      if collected.2.2.isEmpty then acc
      else
        let firstFrag := collected.2.2.headD ⟨none, none, none, none⟩
        let descriptions := collected.2.2.filterMap (fun f =>
          match f.text_summary with
          | some t => if t ≠ "" then some t else none
          | none => none)
        let combined := String.intercalate " " descriptions
        let hints := collected.2.2.filterMap (fun f =>
          match f.severity_hint with
          | some s => if s ≠ "" then some s else none
          | none => none)
        let maxSeverity :=
          if hints.isEmpty then "major"
          else
            let mv := maxListI (hints.map sevVal)
            if mv > 0 then sevName mv else "major"
        let rationale :=
          "Based on " ++ toString collected.2.2.length ++ " fragment(s) across " ++
            toString collected.1.length ++ " page(s). " ++
          (if hints.isEmpty then ""
           else "Severity hints: " ++ String.intercalate ", " (dedupFirst hints) ++ ". ") ++
          "Description: " ++ String.mk (combined.toList.take 200)
        let issue : Issue :=
          { issue_id := "issue_" ++ String.mk (natPad3 acc.2)
            heuristic_id := heuristicId
            issue_key := issueKey
            title := titleOf firstFrag heuristicId
            combined_description := combined
            pages_involved := pySortedS collected.1
            screenshot_cluster_ids := pySortedS collected.2.1
            ai_proposed_severity := maxSeverity
            ai_severity_rationale := rationale
            ta_review := none }
        (acc.1 ++ [issue], acc.2 + 1))

/-- Lines 4043-4134 (fold wrapper for `buildIssueStep`). -/
def buildIssues (pages : List Page) (groups : List (String × List GroupItem)) : List Issue :=
  (groups.foldl (buildIssueStep pages) ([], 1)).1

/-- Embedding of `aggregate_issues` (main.py 3980-4134). -/
def aggregateIssues (pages : List Page) : List Issue :=
  buildIssues pages (collectFragments pages)

/-- Well-formedness of a grouped item relative to its group key: the
fragment passed the acceptance filter and the key is the original spellings
joined by `::`. -/
def GItemOk (gk : String) (it : GroupItem) : Prop :=
  heuristicAccepted (it.fragment.heuristic_id.getD "") = true ∧
    gk = it.fragment.heuristic_id.getD "" ++ "::" ++ it.fragment.issue_key.getD ""

lemma addToGroups_ok (k : String) (item : GroupItem) (hi : GItemOk k item) :
    ∀ groups : List (String × List GroupItem),
      (∀ g ∈ groups, ∀ it ∈ g.2, GItemOk g.1 it) →
      ∀ g ∈ addToGroups k item groups, ∀ it ∈ g.2, GItemOk g.1 it := by
  intro groups
  induction groups with
  | nil =>
    intro _ g hg it hit
    simp only [addToGroups, List.mem_singleton] at hg
    subst hg
    simp only [List.mem_singleton] at hit
    subst hit
    exact hi
  | cons p rest ih =>
    intro hall g hg it hit
    obtain ⟨k', items⟩ := p
    by_cases hk : k' = k
    · simp only [addToGroups, if_pos hk] at hg
      rcases List.mem_cons.mp hg with hg | hg
      · subst hg
        simp only at hit
        rcases List.mem_append.mp hit with hm | hm
        · exact hall (k', items) (List.mem_cons_self _ _) it hm
        · simp only [List.mem_singleton] at hm
          subst hm
          exact hk ▸ hi
      · exact hall g (List.mem_cons.mpr (Or.inr hg)) it hit
    · simp only [addToGroups, if_neg hk] at hg
      rcases List.mem_cons.mp hg with hg | hg
      · subst hg
        exact hall (k', items) (List.mem_cons_self _ _) it hit
      · exact ih (fun g' hg' => hall g' (List.mem_cons.mpr (Or.inr hg'))) g hg it hit

lemma collectFragStep_ok (p : Page) (frag : Fragment)
    (groups : List (String × List GroupItem))
    (hall : ∀ g ∈ groups, ∀ it ∈ g.2, GItemOk g.1 it) :
    ∀ g ∈ collectFragStep p groups frag, ∀ it ∈ g.2, GItemOk g.1 it := by
  rw [collectFragStep]
  by_cases ha : heuristicAccepted (frag.heuristic_id.getD "") = true
  · simp only [ha, if_pos]
    exact addToGroups_ok _ ⟨frag, pageIdOf p, p.screenshot_cluster_id⟩ ⟨ha, rfl⟩ groups hall
  · simp only [if_neg ha]
    exact hall

lemma fragsFold_ok (p : Page) :
    ∀ (frags : List Fragment) (groups : List (String × List GroupItem)),
      (∀ g ∈ groups, ∀ it ∈ g.2, GItemOk g.1 it) →
      ∀ g ∈ frags.foldl (collectFragStep p) groups, ∀ it ∈ g.2, GItemOk g.1 it := by
  intro frags
  induction frags with
  | nil => intro groups h; exact h
  | cons f fs ih =>
    intro groups h
    exact ih (collectFragStep p groups f) (collectFragStep_ok p f groups h)

lemma collectPageStep_ok (p : Page) (groups : List (String × List GroupItem))
    (hall : ∀ g ∈ groups, ∀ it ∈ g.2, GItemOk g.1 it) :
    ∀ g ∈ collectPageStep groups p, ∀ it ∈ g.2, GItemOk g.1 it := by
  rw [collectPageStep]
  by_cases hc : (p.page_role.getD "other" ≠ "violation_detail" && p.fragments.isEmpty) = true
  · simp only [hc, if_pos]; exact hall
  · simp only [if_neg hc]; exact fragsFold_ok p p.fragments groups hall

lemma collectFragments_ok (pages : List Page) :
    ∀ g ∈ collectFragments pages, ∀ it ∈ g.2, GItemOk g.1 it := by
  rw [collectFragments]
  have main : ∀ (ps : List Page) (groups : List (String × List GroupItem)),
      (∀ g ∈ groups, ∀ it ∈ g.2, GItemOk g.1 it) →
      ∀ g ∈ ps.foldl collectPageStep groups, ∀ it ∈ g.2, GItemOk g.1 it := by
    intro ps
    induction ps with
    | nil => intro groups h; exact h
    | cons p rest ih =>
      intro groups h
      exact ih (collectPageStep groups p) (collectPageStep_ok p groups h)
  exact main pages [] (by intro g hg; exact absurd hg (List.not_mem_nil g))

/-- A violation-detail page carrying the four heuristic-3 spellings of the
claim under one issue key. -/
def C2demoPage : Page :=
  { page_role := some "violation_detail", page_id := some "p01", page_number := some 1,
    fragments := [⟨some "H3", some "k", some "Unclear status indicator.", some "minor"⟩,
                  ⟨some "h3", some "k", some "Second sighting.", none⟩,
                  ⟨some "Heuristic 3", some "k", some "Third sighting.", none⟩,
                  ⟨some "Heuristic #3", some "k", some "Fourth sighting.", none⟩],
    screenshot_cluster_id := none }

/-- C2. The claim says the spellings "H3", "h3", "Heuristic 3" and
"Heuristic #3" are canonicalised to "H3" and grouped into one Issue. On a
page carrying all four spellings under one issue key, `aggregate_issues`
instead produces two Issues keeping the original spellings "H3" and "h3"
(no canonicalisation, so the spellings do not share a group key), and the
"Heuristic 3" / "Heuristic #3" fragments are dropped entirely rather than
canonicalised. -/
theorem C2_no_canonicalisation_counterexample :
    (aggregateIssues [C2demoPage]).map Issue.heuristic_id = ["H3", "h3"] ∧
      (aggregateIssues [C2demoPage]).length = 2 :=
  ⟨by decide, by decide⟩

/-- C2 (amended). Fragments are filtered, never canonicalised: a fragment
enters Issue formation exactly when its heuristic_id is non-empty, does not
start with "Hx", and parses to an integer 1..10 after removing "H"/"h"
characters and truncating at the first underscore; every grouped fragment
satisfies this filter and its group key keeps the original heuristic_id
spelling (so "H3" and "h3" fall into distinct groups); "H3" and "h3" pass
the filter while "Heuristic 3", "Heuristic #3", "H11", "Hx" and "" are
excluded. -/
theorem C2_fragment_filter_amended (pages : List Page) (g : String × List GroupItem)
    (hg : g ∈ collectFragments pages) (it : GroupItem) (hit : it ∈ g.2) :
    (heuristicAccepted (it.fragment.heuristic_id.getD "") = true ∧
      g.1 = it.fragment.heuristic_id.getD "" ++ "::" ++ it.fragment.issue_key.getD "") ∧
    heuristicAccepted "H3" = true ∧ heuristicAccepted "h3" = true ∧
    heuristicAccepted "Heuristic 3" = false ∧ heuristicAccepted "Heuristic #3" = false ∧
    heuristicAccepted "H11" = false ∧ heuristicAccepted "Hx" = false ∧
    heuristicAccepted "" = false :=
  ⟨collectFragments_ok pages g hg it hit,
   by decide, by decide, by decide, by decide, by decide, by decide, by decide⟩

/-- C2 witness: the amended filter theorem applied to the "h3" group
collected from the demo page. -/
theorem C2_fragment_filter_witness :
    (heuristicAccepted
        ((⟨⟨some "h3", some "k", some "Second sighting.", none⟩, "p01", none⟩ :
          GroupItem).fragment.heuristic_id.getD "") = true ∧
      ("h3::k",
        [(⟨⟨some "h3", some "k", some "Second sighting.", none⟩, "p01", none⟩ :
          GroupItem)]).1 =
        (⟨⟨some "h3", some "k", some "Second sighting.", none⟩, "p01", none⟩ :
          GroupItem).fragment.heuristic_id.getD "" ++ "::" ++
        (⟨⟨some "h3", some "k", some "Second sighting.", none⟩, "p01", none⟩ :
          GroupItem).fragment.issue_key.getD "") ∧
    heuristicAccepted "H3" = true ∧ heuristicAccepted "h3" = true ∧
    heuristicAccepted "Heuristic 3" = false ∧ heuristicAccepted "Heuristic #3" = false ∧
    heuristicAccepted "H11" = false ∧ heuristicAccepted "Hx" = false ∧
    heuristicAccepted "" = false :=
  C2_fragment_filter_amended [C2demoPage]
    ("h3::k", [⟨⟨some "h3", some "k", some "Second sighting.", none⟩, "p01", none⟩])
    (by decide)
    ⟨⟨some "h3", some "k", some "Second sighting.", none⟩, "p01", none⟩
    (by decide)

lemma dedupAppendS_ne_nil (x : String) (xs : List String) : dedupAppendS x xs ≠ [] := by
  cases xs with
  | nil => simp [dedupAppendS]
  | cons y ys =>
    rw [dedupAppendS]
    split <;> simp

lemma collectGroupStep_inv (pages : List Page) (acc : List String × List String × List Fragment)
    (item : GroupItem) (h : acc.2.2 ≠ [] → acc.1 ≠ []) :
    (collectGroupStep pages acc item).2.2 ≠ [] → (collectGroupStep pages acc item).1 ≠ [] := by
  rw [collectGroupStep]
  set skip := match pages.find? (fun p =>
      p.page_id == some item.page_id ||
        String.mk ('p' :: intPad2 (p.page_number.getD 0)) == item.page_id) with
    | some op => op.fragments.isEmpty
    | none => false with hskip
  by_cases hs : skip = true
  · simp only [hs, if_pos]; exact h
  · simp only [if_neg hs]
    intro _
    exact dedupAppendS_ne_nil item.page_id acc.1

lemma collectGroup_inv (pages : List Page) (items : List GroupItem) :
    (collectGroup pages items).2.2 ≠ [] → (collectGroup pages items).1 ≠ [] := by
  rw [collectGroup]
  have main : ∀ (is : List GroupItem) (acc : List String × List String × List Fragment),
      (acc.2.2 ≠ [] → acc.1 ≠ []) →
      ((is.foldl (collectGroupStep pages) acc).2.2 ≠ [] →
        (is.foldl (collectGroupStep pages) acc).1 ≠ []) := by
    intro is
    induction is with
    | nil => intro acc h; exact h
    | cons i rest ih =>
      intro acc h
      exact ih (collectGroupStep pages acc i) (collectGroupStep_inv pages acc i h)
  exact main items ([], [], []) (by intro h; exact absurd rfl h)

lemma insSorted_length (x : List Char) (ys : List (List Char)) :
    (insSorted x ys).length = ys.length + 1 := by
  induction ys with
  | nil => rfl
  | cons y ys ih =>
    rw [insSorted]
    by_cases h : lexLt x y = true <;> simp [h, ih]

lemma pySortedL_length (xs : List (List Char)) : (pySortedL xs).length = xs.length := by
  rw [pySortedL]
  have main : ∀ (l : List (List Char)) (acc : List (List Char)),
      (l.foldl (fun acc x => insSorted x acc) acc).length = acc.length + l.length := by
    intro l
    induction l with
    | nil => intro acc; simp
    | cons y ys ih =>
      intro acc
      rw [List.foldl_cons, ih, insSorted_length]
      simp only [List.length_cons]
      omega
  simpa using main xs []

lemma pySortedS_ne_nil (xs : List String) (h : xs ≠ []) : pySortedS xs ≠ [] := by
  rw [pySortedS]
  intro hc
  have h1 : (pySortedL (xs.map String.toList)).length = 0 := by
    rw [show pySortedL (xs.map String.toList) = ((pySortedL (xs.map String.toList)).map String.mk).map String.toList from ?_, hc]
    · rfl
    · rw [List.map_map]
      have : ∀ l : List (List Char), l.map (String.toList ∘ String.mk) = l := by
        intro l
        induction l with
        | nil => rfl
        | cons a as ih => simp [ih]
      exact (this _).symm
  rw [pySortedL_length, List.length_map] at h1
  exact h (List.length_eq_zero.mp h1)

lemma buildIssueStep_inv (pages : List Page) (acc : List Issue × Nat)
    (g : String × List GroupItem) (h : ∀ i ∈ acc.1, i.pages_involved ≠ []) :
    ∀ i ∈ (buildIssueStep pages acc g).1, i.pages_involved ≠ [] := by
  rw [buildIssueStep]
  by_cases h1 : g.2.isEmpty = true
  · simp only [h1, if_pos]; exact h
  · simp only [if_neg h1]
    by_cases h2 : (collectGroup pages g.2).2.2.isEmpty = true
    · simp only [h2, if_pos]; exact h
    · simp only [if_neg h2]
      intro i hi
      rcases List.mem_append.mp hi with hm | hm
      · exact h i hm
      · simp only [List.mem_singleton] at hm
        subst hm
        simp only
        apply pySortedS_ne_nil
        apply collectGroup_inv
        intro hnil
        rw [hnil] at h2
        exact h2 rfl

/-- C9. Every Issue produced by `aggregate_issues` has a non-empty
pages_involved list: an Issue is emitted only when at least one fragment
survives the defensive re-check, and each surviving fragment inserts its
page id into the page set first. -/
theorem C9_pages_involved_nonempty (pages : List Page) (issue : Issue)
    (h : issue ∈ aggregateIssues pages) : issue.pages_involved ≠ [] := by
  rw [aggregateIssues, buildIssues] at h
  have main : ∀ (gs : List (String × List GroupItem)) (acc : List Issue × Nat),
      (∀ i ∈ acc.1, i.pages_involved ≠ []) →
      ∀ i ∈ (gs.foldl (buildIssueStep pages) acc).1, i.pages_involved ≠ [] := by
    intro gs
    induction gs with
    | nil => intro acc h; exact h
    | cons g rest ih =>
      intro acc hacc
      exact ih (buildIssueStep pages acc g) (buildIssueStep_inv pages acc g hacc)
  exact main (collectFragments pages) ([], 1)
    (by intro i hi; exact absurd hi (List.not_mem_nil i)) issue h

/-- A single violation page whose one fragment yields one Issue. -/
def C9demoPage : Page :=
  { page_role := some "violation_detail", page_id := some "p02", page_number := some 2,
    fragments := [⟨some "H5", some "guardrails", some "No confirmation before delete.", some "critical"⟩],
    screenshot_cluster_id := some "cl2" }

/-- C9 witness: the non-emptiness theorem applied to the concrete Issue
aggregated from the demo page. -/
theorem C9_pages_involved_nonempty_witness :
    ((aggregateIssues [C9demoPage]).headD
      { issue_id := "", heuristic_id := "", issue_key := "", title := "",
        combined_description := "", pages_involved := [], screenshot_cluster_ids := [],
        ai_proposed_severity := "", ai_severity_rationale := "", ta_review := none }).pages_involved ≠ [] :=
  C9_pages_involved_nonempty [C9demoPage] _ (by decide)

/-! ## ta_review carry-forward and clearing (C3) -/

/-- The dict comprehension of main.py 974
(`{issue.get("issue_id"): issue for issue in existing_issues}`) followed by
`.get`: with duplicate ids the later entry overwrites the earlier one. -/
def lookupIssueLast (issues : List Issue) (iid : String) : Option Issue :=
  issues.foldl (fun acc i => if i.issue_id == iid then some i else acc) none

/-- Lines 975-978: copy the prior ta_review onto a freshly rebuilt issue
when the prior issue with the same issue_id carries one (a present review is
a non-empty dict in Python, hence truthy, modelled as `some`). -/
def mergeOneTaReview (existing : List Issue) (i : Issue) : Issue :=
  match lookupIssueLast existing i.issue_id with
  | some ex =>
    match ex.ta_review with
    | some r => { i with ta_review := some r }
    | none => i
  | none => i

/-- Lines 973-978: the merge applied to every freshly rebuilt issue. -/
def mergeTaReviews (fresh existing : List Issue) : List Issue :=
  fresh.map (mergeOneTaReview existing)

/-- recompute_job_scores lines 2416-2419: delete ta_review from every stored
issue. -/
def clearTaReviews (issues : List Issue) : List Issue :=
  issues.map (fun i => { i with ta_review := none })

/-- recompute_job_scores lines 2407-2425: the stored issue list is rewritten
without ta_review entries exactly when `clear_reviews` is set; otherwise it
is left untouched. -/
def recomputeStoredIssues (issues : List Issue) (clearReviews : Bool) : List Issue :=
  if clearReviews then clearTaReviews issues else issues

/-- C3. On every aggregation pass the rebuilt issue whose issue_id matches a
prior issue carrying a ta_review receives that ta_review; a recompute with
clearReviews=false leaves the stored issues (hence every ta_review)
untouched; a recompute with clearReviews=true removes every ta_review. -/
theorem C3_ta_review_carry_forward (fresh existing : List Issue) :
    (∀ i : Issue, ∀ ex : Issue, ∀ r : TaReview,
      lookupIssueLast existing i.issue_id = some ex → ex.ta_review = some r →
        (mergeOneTaReview existing i).ta_review = some r) ∧
    mergeTaReviews fresh existing = fresh.map (mergeOneTaReview existing) ∧
    recomputeStoredIssues existing false = existing ∧
    (∀ i ∈ recomputeStoredIssues existing true, i.ta_review = none) := by
  refine ⟨?_, rfl, rfl, ?_⟩
  · intro i ex r hlook hrev
    rw [mergeOneTaReview, hlook]
    simp [hrev]
  · intro i hi
    have he : recomputeStoredIssues existing true = clearTaReviews existing := rfl
    rw [he, clearTaReviews, List.mem_map] at hi
    obtain ⟨j, _, hj⟩ := hi
    rw [← hj]

/-- A prior issue carrying a TA review. -/
def C3priorIssue : Issue :=
  { issue_id := "issue_001", heuristic_id := "H5", issue_key := "guardrails",
    title := "No confirmation before delete", combined_description := "No confirmation before delete.",
    pages_involved := ["p02"], screenshot_cluster_ids := ["cl2"],
    ai_proposed_severity := "critical", ai_severity_rationale := "r",
    ta_review := some ⟨some "major", some 3, some "overstated", some "agree mostly"⟩ }

/-- The same issue freshly rebuilt (no ta_review yet). -/
def C3freshIssue : Issue := { C3priorIssue with ta_review := none, ai_severity_rationale := "r2" }

/-- C3 witness: the carry-forward theorem applied to a concrete prior list
holding a review and the matching rebuilt issue. -/
theorem C3_ta_review_carry_forward_witness :
    (mergeOneTaReview [C3priorIssue] C3freshIssue).ta_review =
      some ⟨some "major", some 3, some "overstated", some "agree mostly"⟩ :=
  (C3_ta_review_carry_forward [C3freshIssue] [C3priorIssue]).1 C3freshIssue C3priorIssue
    ⟨some "major", some 3, some "overstated", some "agree mostly"⟩ (by decide) (by decide)

/-! ## Python str()/repr() on JSON-shaped values -/

/-- Smallest number of decimal digits clearing the denominator (fuelled; all
values reaching it come from decimal literals, so the fuel suffices). -/
def ratDecDigitsAux (den : Nat) : Nat → Nat → Option Nat
  | 0, _ => none
  | fuel + 1, k => if pow10 k % den = 0 then some k else ratDecDigitsAux den fuel (k + 1)

def ratDecDigits (den : Nat) : Option Nat := ratDecDigitsAux den 65 0

/-- Python `repr` of a float holding an exact decimal value; values needing
more than 64 fractional digits (unreachable from the studied inputs) render
with a question mark. -/
def floatRepr (q : Rat) : String :=
  match ratDecDigits q.den with
  | some 0 => toString q.num ++ ".0"
  | some k =>
    let n := q.num.natAbs * (pow10 k / q.den)
    let ds := toString n
    let ds := if ds.length ≤ k then String.mk (List.replicate (k + 1 - ds.length) '0') ++ ds else ds
    let ipart := String.mk (ds.toList.take (ds.length - k))
    let fpart := String.mk (ds.toList.drop (ds.length - k))
    (if q.num < 0 then "-" else "") ++ ipart ++ "." ++ fpart
  | none => "?"

def pyQuoteChar : Char := Char.ofNat 39

mutual
/-- Python `repr` on JSON-shaped values (string quoting simplified to plain
single quotes; no claim below depends on quote escaping). -/
def pyReprJ : JVal → String
  | .null => "None"
  | .bool b => if b then "True" else "False"
  | .num isFloat q =>
    if isFloat then floatRepr q
    else if q.den = 1 then toString q.num else floatRepr q
  | .str s => String.singleton pyQuoteChar ++ s ++ String.singleton pyQuoteChar
  | .arr xs => "[" ++ pyReprL xs ++ "]"
  | .obj fs => "\x7b" ++ pyReprO fs ++ "\x7d"

def pyReprL : List JVal → String
  | [] => ""
  | [x] => pyReprJ x
  | x :: xs => pyReprJ x ++ ", " ++ pyReprL xs

def pyReprO : List (String × JVal) → String
  | [] => ""
  | [(k, v)] => String.singleton pyQuoteChar ++ k ++ String.singleton pyQuoteChar ++ ": " ++ pyReprJ v
  | (k, v) :: xs =>
    String.singleton pyQuoteChar ++ k ++ String.singleton pyQuoteChar ++ ": " ++ pyReprJ v ++
      ", " ++ pyReprO xs
end

/-- Python `str()` on JSON-shaped values. -/
def pyStrJ : JVal → String
  | .str s => s
  | v => pyReprJ v

/-! ## save_override / save_correction / report_ai_error (C7, C8) -/

/-- A stored override record (save_override, main.py 3291-3301). -/
structure OverrideRec where
  id : String
  jobId : String
  pageNumber : JVal
  field : String
  originalValue : JVal
  overrideValue : JVal
  reviewerName : String
  reviewerNotes : String
  timestamp : String
  deriving Repr

/-- A stored correction record (main.py 3402-3413 and 5946-5956); only the
auto-promotion path sets `source`. -/
structure CorrectionRec where
  id : String
  jobId : String
  pageNumber : JVal
  component : String
  reason : String
  originalValue : JVal
  correctedValue : JVal
  reviewerNotes : String
  timestamp : String
  source : Option String
  deriving Repr

/-- A stored risk flag (main.py 3360-3364). -/
structure RiskFlag where
  pageNumber : JVal
  notes : String
  timestamp : String
  deriving Repr

/-- The on-disk documents touched by the override endpoints, plus a log of
`json.dump` calls in execution order. -/
structure Stores where
  overrides : List OverrideRec
  riskFlags : List RiskFlag
  corrections : List CorrectionRec
  writeLog : List String
  deriving Repr

/-- The request fields read by save_override (main.py 3278-3289); string
fields carry their `.get` defaults, identifiers and timestamps derived from
`time.time()` are abstracted to functions of the supplied clock value (they
enter no comparison). -/
structure OverrideRequest where
  jobId : String
  pageNumber : JVal
  field : String
  originalValue : JVal
  overrideValue : JVal
  reviewerName : String
  reviewerNotes : String
  deriving Repr

/-- Lines 3314-3317: an existing override matches on page, field and both
values (Python `==`). -/
def overrideMatches (req : OverrideRequest) (ex : OverrideRec) : Bool :=
  pyEq ex.pageNumber req.pageNumber && ex.field == req.field &&
    pyEq ex.originalValue req.originalValue && pyEq ex.overrideValue req.overrideValue

/-- Lines 3325-3328 applied to the first matching stored override. -/
def updateFirstOverride (req : OverrideRequest) (notes ts : String) :
    List OverrideRec → List OverrideRec
  | [] => []
  | e :: rest =>
    if overrideMatches req e then { e with reviewerNotes := notes, timestamp := ts } :: rest
    else e :: updateFirstOverride req notes ts rest

/-- Lines 3372-3380: the component name from a dotted field path is the
second dot-separated part, else the field itself. -/
def componentOfField (field : String) : String :=
  match findCharL '.' field.toList with
  | none => field
  | some i => String.mk (beforeCharL '.' (field.toList.drop (i + 1)))

/-- Lines 3390-3398: a stored correction matching the promoted one on job,
page, component and stringified values. -/
def correctionMatches (jobId : String) (pn : JVal) (comp : String) (ov cv : JVal)
    (corr : CorrectionRec) : Bool :=
  corr.jobId == jobId && pyEq corr.pageNumber pn && corr.component == comp &&
    pyStrJ corr.originalValue == pyStrJ ov && pyStrJ corr.correctedValue == pyStrJ cv

/-- save_correction (main.py 5915-5926): unconditional append plus a write. -/
def saveCorrection (c : CorrectionRec) (st : Stores) : Stores :=
  { st with corrections := st.corrections ++ [c], writeLog := st.writeLog ++ ["corrections"] }

/-- Lines 3337-3338: notes marking an auto-generated override. -/
def isAutoNote (notes : String) : Bool :=
  if notes ≠ "" then
    (findSubL "Auto-set:".toList notes.toList).isSome ||
    (findSubL "auto-set:".toList notes.toList).isSome ||
    (findSubL "Auto-generated".toList notes.toList).isSome ||
    (findSubL "auto-generated".toList notes.toList).isSome
  else false

def overrideRecToJVal (o : OverrideRec) : JVal :=
  .obj [("id", .str o.id), ("jobId", .str o.jobId), ("pageNumber", o.pageNumber),
        ("field", .str o.field), ("originalValue", o.originalValue),
        ("overrideValue", o.overrideValue), ("reviewerName", .str o.reviewerName),
        ("reviewerNotes", .str o.reviewerNotes), ("timestamp", .str o.timestamp)]

def correctionRecToJVal (c : CorrectionRec) : JVal :=
  .obj ([("id", .str c.id), ("jobId", .str c.jobId), ("pageNumber", c.pageNumber),
         ("component", .str c.component), ("reason", .str c.reason),
         ("originalValue", c.originalValue), ("correctedValue", c.correctedValue),
         ("reviewerNotes", .str c.reviewerNotes), ("timestamp", .str c.timestamp)] ++
        (match c.source with
         | some s => [("source", JVal.str s)]
         | none => []))

/-- Lines 3370-3416: a new override is promoted into a correction record
exactly when no stored correction matches it; a duplicate override is never
promoted. Reads the pre-call stores (the preceding writes touch neither the
override list consulted at line 3313 nor the corrections loaded at 3388
before this point). -/
def promotedCorrection (nowMs : Nat) (req : OverrideRequest) (st : Stores) :
    Option CorrectionRec :=
  match st.overrides.find? (overrideMatches req) with
  | some _ => none
  | none =>
    let comp := componentOfField req.field
    if st.corrections.any
        (correctionMatches req.jobId req.pageNumber comp req.originalValue req.overrideValue) then
      none
    else
      some { id := "correction_" ++ toString nowMs, jobId := req.jobId,
             pageNumber := req.pageNumber, component := comp,
             reason := "TA override: Changed " ++ req.field ++ " from " ++
               pyStrJ req.originalValue ++ " to " ++ pyStrJ req.overrideValue ++
               (if req.reviewerNotes ≠ "" then ". Notes: " ++ req.reviewerNotes else ""),
             originalValue := req.originalValue, correctedValue := req.overrideValue,
             reviewerNotes := (if req.reviewerNotes ≠ "" then req.reviewerNotes
                               else "Auto-generated from override"),
             timestamp := "t" ++ toString nowMs, source := some "auto_from_override" }

/-- Embedding of save_override (main.py 3275-3422). The returned `Except`
models the HTTP outcome: `.error` covers both the explicit 400 and the
`UnboundLocalError` raised at line 3421 when the local `correction` was
never assigned (duplicate override, or duplicate correction). File writes
append their document name to the write log at the position of the
corresponding `json.dump`. -/
def saveOverride (nowMs : Nat) (req : OverrideRequest) (st : Stores) :
    Except String JVal × Stores :=
  if req.jobId = "" then (.error "jobId is required", st)
  else
    let ts := "t" ++ toString nowMs
    let overrideRecord : OverrideRec :=
      { id := "override_" ++ toString nowMs, jobId := req.jobId,
        pageNumber := req.pageNumber, field := req.field,
        originalValue := req.originalValue, overrideValue := req.overrideValue,
        reviewerName := req.reviewerName, reviewerNotes := req.reviewerNotes,
        timestamp := ts }
    let existingOverride := st.overrides.find? (overrideMatches req)
    let newOverrides :=
      match existingOverride with
      | none => st.overrides ++ [overrideRecord]
      | some _ =>
        if req.reviewerNotes ≠ "" && pyStripL req.reviewerNotes.toList ≠ [] then
          updateFirstOverride req req.reviewerNotes ts st.overrides
        else st.overrides
    let responseOverride :=
      match existingOverride with
      | none => overrideRecord
      | some ex =>
        if req.reviewerNotes ≠ "" && pyStripL req.reviewerNotes.toList ≠ [] then
          { ex with reviewerNotes := req.reviewerNotes, timestamp := ts }
        else ex
    -- line 3332: the overrides file is rewritten unconditionally
    let st1 := { st with overrides := newOverrides, writeLog := st.writeLog ++ ["overrides"] }
    -- lines 3335-3368: risk flag for human notes (reads the original flags)
    let st2 :=
      if req.reviewerNotes ≠ "" && pyStripL req.reviewerNotes.toList ≠ [] &&
          !isAutoNote req.reviewerNotes then
        if st1.riskFlags.any (fun p => pyEq p.pageNumber req.pageNumber) then st1
        else { st1 with riskFlags := st1.riskFlags ++ [⟨req.pageNumber, req.reviewerNotes, ts⟩],
                        writeLog := st1.writeLog ++ ["risk_flags"] }
      else st1
    let promoted := promotedCorrection nowMs req st
    let st3 :=
      match promoted with
      | some c => saveCorrection c st2
      | none => st2
    -- lines 3418-3422: the response names the local `correction`, which is
    -- assigned only on the promotion branch
    match promoted with
    | some c =>
      (.ok (.obj [("status", .str "success"), ("override", overrideRecToJVal responseOverride),
                  ("correction", correctionRecToJVal c)]), st3)
    | none =>
      (.error "UnboundLocalError: local variable correction referenced before assignment", st3)

/-- The request fields read by report_ai_error (main.py 5932-5938). -/
structure ReportRequest where
  jobId : String
  pageNumber : Option JVal
  component : String
  reason : String
  originalValue : JVal
  correctedValue : JVal
  reviewerNotes : String
  deriving Repr

/-- The correction record built by report_ai_error (main.py 5946-5956). -/
def reportCorrection (nowMs : Nat) (req : ReportRequest) : CorrectionRec :=
  { id := "correction_" ++ toString nowMs, jobId := req.jobId,
    pageNumber := req.pageNumber.getD .null, component := req.component,
    reason := req.reason, originalValue := req.originalValue,
    correctedValue := req.correctedValue, reviewerNotes := req.reviewerNotes,
    timestamp := "t" ++ toString nowMs, source := none }

/-- Embedding of report_ai_error (main.py 5929-5964): after validation the
correction is saved unconditionally, with no duplicate check. -/
def reportAiError (nowMs : Nat) (req : ReportRequest) (st : Stores) :
    Except String JVal × Stores :=
  if req.jobId = "" || req.pageNumber.isNone || req.component = "" || req.reason = "" then
    (.error "jobId, pageNumber, component, and reason are required", st)
  else
    let c := reportCorrection nowMs req
    (.ok (.obj [("status", .str "success"), ("correction", correctionRecToJVal c),
                ("message", .str "AI error reported and saved")]),
     saveCorrection c st)

lemma saveOverride_corrections (nowMs : Nat) (req : OverrideRequest) (st : Stores)
    (h0 : ¬ req.jobId = "") :
    (saveOverride nowMs req st).2.corrections =
      match promotedCorrection nowMs req st with
      | some c => st.corrections ++ [c]
      | none => st.corrections := by
  rw [saveOverride, if_neg h0]
  cases hp : promotedCorrection nowMs req st with
  | none =>
    simp only [hp]
    split
    · split
      · rfl
      · rfl
    · rfl
  | some c =>
    simp only [hp, saveCorrection]
    split
    · split
      · rfl
      · rfl
    · rfl

/-- A report_ai_error request correcting violation_quality on page 3. -/
def C7demoReport : ReportRequest :=
  { jobId := "job-1", pageNumber := some (.num false 3), component := "violation_quality",
    reason := "Too harsh", originalValue := .num false 18, correctedValue := .num false 15,
    reviewerNotes := "" }

/-- C7. The claim says no two correction records with the same job, target,
component, original and corrected value are ever recorded through any
recording path. Reporting the identical correction twice through
report_ai_error stores two records matching that key, because that path
appends unconditionally. -/
theorem C7_duplicate_report_counterexample :
    ((reportAiError 2 C7demoReport
        (reportAiError 1 C7demoReport ⟨[], [], [], []⟩).2).2.corrections.filter
      (correctionMatches "job-1" (.num false 3) "violation_quality"
        (.num false 18) (.num false 15))).length = 2 := rfl

/-- C7 (amended). Correction deduplication exists only on the save_override
promotion path: save_override leaves the correction store unchanged or
appends exactly one record, and it appends only when no stored correction
already matches the promoted key (job, page, component, stringified
original and corrected values); report_ai_error, by contrast, appends its
correction unconditionally after validation, so reporting the same
correction twice stores it twice. -/
theorem C7_correction_dedup_amended (nowMs : Nat) (req : OverrideRequest)
    (st : Stores) (rreq : ReportRequest)
    (h0 : ¬ req.jobId = "")
    (hv : (rreq.jobId = "" || rreq.pageNumber.isNone || rreq.component = "" ||
            rreq.reason = "") = false) :
    ((saveOverride nowMs req st).2.corrections = st.corrections ∨
      ∃ c, (saveOverride nowMs req st).2.corrections = st.corrections ++ [c]) ∧
    (∀ c, (saveOverride nowMs req st).2.corrections = st.corrections ++ [c] →
      st.corrections.any
        (correctionMatches req.jobId req.pageNumber (componentOfField req.field)
          req.originalValue req.overrideValue) = false) ∧
    (reportAiError nowMs rreq st).2.corrections =
      st.corrections ++ [reportCorrection nowMs rreq] := by
  have hc := saveOverride_corrections nowMs req st h0
  refine ⟨?_, ?_, ?_⟩
  · cases hp : promotedCorrection nowMs req st with
    | none => left; rw [hc, hp]
    | some c => right; exact ⟨c, by rw [hc, hp]⟩
  · intro c hceq
    cases hp : promotedCorrection nowMs req st with
    | none =>
      exfalso
      rw [hc, hp] at hceq
      have := congrArg List.length hceq
      simp at this
    | some c0 =>
      rw [promotedCorrection] at hp
      cases hf : st.overrides.find? (overrideMatches req) with
      | some ex => rw [hf] at hp; exact absurd hp (by simp)
      | none =>
        rw [hf] at hp
        by_cases hany : st.corrections.any
            (correctionMatches req.jobId req.pageNumber (componentOfField req.field)
              req.originalValue req.overrideValue) = true
        · rw [if_pos hany] at hp; exact absurd hp (by simp)
        · simpa using hany
  · rw [reportAiError, if_neg (by simp [hv])]
    rfl

/-- An override request promoting a violation_quality change. -/
def C7demoOverrideReq : OverrideRequest :=
  { jobId := "job-1", pageNumber := .num false 3,
    field := "score_breakdown.violation_quality.points",
    originalValue := .num false 18, overrideValue := .num false 15,
    reviewerName := "Anonymous", reviewerNotes := "" }

/-- C7 witness: the amended theorem applied to concrete requests on empty
stores; the projected conjunct shows the unconditional append of the report
path. -/
theorem C7_correction_dedup_witness :
    (reportAiError 7 C7demoReport ⟨[], [], [], []⟩).2.corrections =
      [] ++ [reportCorrection 7 C7demoReport] :=
  (C7_correction_dedup_amended 7 C7demoOverrideReq ⟨[], [], [], []⟩ C7demoReport
    (by decide) (by decide)).2.2

/-- The duplicate-override request of claim C8 (no reviewer notes, so the
second call takes the pure duplicate path). -/
def C8demoReq : OverrideRequest :=
  { jobId := "job-9", pageNumber := .num false 4,
    field := "score_breakdown.coverage.points",
    originalValue := .num false 10, overrideValue := .num false 13,
    reviewerName := "Anonymous", reviewerNotes := "" }

/-- C8. Calling save_override twice with identical jobId, pageNumber, field,
originalValue and overrideValue: the first call succeeds; the second call
does not return a success response but fails on the unassigned local
`correction` at the return statement, after the overrides file has already
been rewritten (one more "overrides" entry in the write log) and without
adding a correction record. -/
theorem C8_duplicate_override_unbound_local :
    (saveOverride 1000 C8demoReq ⟨[], [], [], []⟩).1.isOk = true ∧
    (saveOverride 2000 C8demoReq (saveOverride 1000 C8demoReq ⟨[], [], [], []⟩).2).1 =
      .error "UnboundLocalError: local variable correction referenced before assignment" ∧
    (saveOverride 2000 C8demoReq (saveOverride 1000 C8demoReq ⟨[], [], [], []⟩).2).2.writeLog =
      (saveOverride 1000 C8demoReq ⟨[], [], [], []⟩).2.writeLog ++ ["overrides"] ∧
    (saveOverride 2000 C8demoReq (saveOverride 1000 C8demoReq ⟨[], [], [], []⟩).2).2.corrections.length = 1 :=
  ⟨rfl, rfl, rfl, rfl⟩

/-! ## parse_scoring_output (main.py 1764-1935), claim C1 -/

/-- Python truncation toward zero (`int(float)`), by integer division of
the reduced numerator and denominator. -/
def pyTrunc (q : Rat) : Int := Int.tdiv q.num (q.den : Int)

/-- Python `round()` to an integer: round half to even, computed on the
reduced numerator and denominator (the denominator is positive, so the
fractional part compares against one half by cross-multiplication). -/
def pyRound (q : Rat) : Int :=
  let d : Int := (q.den : Int)
  let f : Int := Int.fdiv q.num d
  let twice := 2 * (q.num - f * d)
  if twice < d then f
  else if twice > d then f + 1
  else if f % 2 = 0 then f else f + 1

/-- Python `float(str)` on the decimal forms `[sign] digits [. digits] [e
[sign] digits]` and `[sign] . digits [exp]` (underscore separators and the
inf/nan words are not modelled: on the studied code both still end in an
uncaught exception, see `roundPoints`). -/
def pyFloatOfStr (s : String) : Option Rat :=
  let t := pyStripL s.toList
  let (neg, t) : Bool × List Char :=
    match t with
    | '-' :: rest => (true, rest)
    | '+' :: rest => (false, rest)
    | _ => (false, t)
  let ipart := t.takeWhile isAsciiDigit
  let t2 := t.drop ipart.length
  let (fpart, t3, hasDot) : List Char × List Char × Bool :=
    match t2 with
    | '.' :: rest =>
      let ds := rest.takeWhile isAsciiDigit
      (ds, rest.drop ds.length, true)
    | _ => ([], t2, false)
  if ipart = [] && fpart = [] then none
  else
    let expRes : Option (Int × List Char) :=
      match t3 with
      | e :: rest =>
        if e = 'e' || e = 'E' then
          let (esign, rest2) : Bool × List Char :=
            match rest with
            | '-' :: r => (true, r)
            | '+' :: r => (false, r)
            | _ => (false, rest)
          let eds := rest2.takeWhile isAsciiDigit
          if eds = [] then none
          else some ((if esign then -(digitsToNat eds : Int) else (digitsToNat eds : Int)),
                     rest2.drop eds.length)
        else none
      | [] => some (0, [])
    match expRes with
    | none => (if hasDot then none else none)
    | some (ex, rem) =>
      if rem ≠ [] then none
      else
        let mant : Int := (digitsToNat (ipart ++ fpart) : Int)
        let mant := if neg then -mant else mant
        let scale : Int := ex - (fpart.length : Int)
        some (if scale ≥ 0 then mkRat (mant * (pow10 scale.toNat : Int)) 1
              else mkRat mant (pow10 (-scale).toNat))

/-- Python `float(value)` on a JSON-shaped value; `.error` stands for the
`TypeError`/`ValueError` caught at main.py 1841. -/
def pyFloatJ : JVal → Except Unit Rat
  | .num _ q => .ok q
  | .bool b => .ok (if b then 1 else 0)
  | .str s =>
    match pyFloatOfStr s with
    | some q => .ok q
    | none => .error ()
  | _ => .error ()

/-- Python `int(value)` on a JSON-shaped value (`none` = uncaught error). -/
def pyIntJ : JVal → Option Int
  | .num _ q => some (pyTrunc q)
  | .bool b => some (if b then 1 else 0)
  | .str s => pyIntL s.toList
  | _ => none

/-- Lines 1767-1774: strip surrounding markdown fences from the raw text. -/
def stripFences (raw : String) : List Char :=
  let c := pyStripL raw.toList
  let c := if startsWithL "\x60\x60\x60json".toList c then pyStripL (c.drop 7) else c
  let c := if startsWithL "\x60\x60\x60".toList c then pyStripL (c.drop 3) else c
  let c := if endsWithL "\x60\x60\x60".toList c then pyStripL (c.take (c.length - 3)) else c
  c

/-- Python `k in v` for a string key: dict key test, list membership,
substring test on strings; `.error` is the `TypeError` raised on the other
types. -/
def memIn (k : String) : JVal → Except String Bool
  | .obj fs => .ok (objHas k fs)
  | .arr xs => .ok (xs.any (fun x => pyEq x (.str k)))
  | .str s => .ok ((findSubL k.toList s.toList).isSome)
  | _ => .error "TypeError: argument is not iterable"

/-- The fixed rubric component maxima (main.py 1801-1810). -/
def maxPointsList : List (String × Int) :=
  [("coverage", 15), ("violation_quality", 20), ("severity_analysis", 10),
   ("screenshots_evidence", 10), ("structure_navigation", 10),
   ("professional_quality", 10), ("writing_quality", 10), ("group_integration", 15)]

/-- Lines 1814-1832: one rubric component normalised to
`{points, max, explanation}` (no clamping anywhere). -/
def normComponent (maxVal : Int) : Option JVal → List (String × JVal)
  | some (.obj vfs) =>
    if objHas "points" vfs then
      [("points", objGetD "points" vfs (.num false 0)),
       ("max", objGetD "max" vfs (.num false maxVal)),
       ("explanation", objGetD "explanation" vfs (.str "No explanation provided."))]
    else
      [("points", .num false 0), ("max", .num false maxVal),
       ("explanation", .str "No explanation provided.")]
  | some (.num _ q) =>
    [("points", .num false (pyTrunc q)), ("max", .num false maxVal),
     ("explanation", .str "No explanation provided.")]
  | some (.bool b) =>
    -- Python bools are ints: `isinstance(True, int)` holds, `int(True) = 1`
    [("points", .num false (if b then 1 else 0)), ("max", .num false maxVal),
     ("explanation", .str "No explanation provided.")]
  | _ =>
    [("points", .num false 0), ("max", .num false maxVal),
     ("explanation", .str "No explanation provided.")]

/-- Lines 1836-1843: round the points of every component except
screenshots_evidence to an integer; on a float() failure fall back to
`int(points or 0)`, whose own failure propagates (`.error`). -/
def roundPoints (key : String) (comp : List (String × JVal)) :
    Except String (List (String × JVal)) :=
  if key ≠ "screenshots_evidence" then
    match pyFloatJ (objGetD "points" comp (.num false 0)) with
    | .ok q => .ok (objSet "points" (.num false (pyRound q)) comp)
    | .error _ =>
      if pyTruthy (objGetD "points" comp (.num false 0)) = false then
        .ok (objSet "points" (.num false 0) comp)
      else
        match pyIntJ (objGetD "points" comp (.num false 0)) with
        | some n => .ok (objSet "points" (.num false n) comp)
        | none => .error "TypeError/ValueError while coercing points"
  else .ok comp

/-- Lines 1813-1843 for a single key: membership test on the raw
rubric_scores value, then normalisation and rounding. -/
def normRubricEntry (rs : JVal) (k : String) (mv : Int) :
    Except String (List (String × JVal)) :=
  match rs with
  | .obj fs => roundPoints k (normComponent mv (objGet k fs))
  | .arr xs =>
    if xs.any (fun x => pyEq x (.str k)) then
      .error "TypeError: indexing a non-dict rubric_scores"
    else roundPoints k (normComponent mv none)
  | .str s =>
    if (findSubL k.toList s.toList).isSome then
      .error "TypeError: indexing a non-dict rubric_scores"
    else roundPoints k (normComponent mv none)
  | _ => .error "TypeError: argument is not iterable"

def normalizeRubricAux (rs : JVal) : List (String × Int) → Except String (List (String × JVal))
  | [] => .ok []
  | (k, mv) :: rest =>
    match normRubricEntry rs k mv with
    | .error e => .error e
    | .ok comp =>
      match normalizeRubricAux rs rest with
      | .error e => .error e
      | .ok tail => .ok ((k, .obj comp) :: tail)

/-- Lines 1812-1845: the normalised rubric_scores dict in max_points order. -/
def normalizeRubricFull (rs : JVal) : Except String (List (String × JVal)) :=
  normalizeRubricAux rs maxPointsList

/-- The bonus maxima (main.py 1850-1853). -/
def bonusMaxList : List (String × Int) :=
  [("bonus_ai_opportunities", 3), ("bonus_exceptional_quality", 2)]

/-- Lines 1856-1873: one bonus component (default explanation is the empty
string here, and no rounding loop runs on bonuses). -/
def normBonusComponent (maxVal : Int) : Option JVal → List (String × JVal)
  | some (.obj vfs) =>
    if objHas "points" vfs then
      [("points", objGetD "points" vfs (.num false 0)),
       ("max", objGetD "max" vfs (.num false maxVal)),
       ("explanation", objGetD "explanation" vfs (.str ""))]
    else
      [("points", .num false 0), ("max", .num false maxVal), ("explanation", .str "")]
  | some (.num _ q) =>
    [("points", .num false (pyTrunc q)), ("max", .num false maxVal), ("explanation", .str "")]
  | some (.bool b) =>
    [("points", .num false (if b then 1 else 0)), ("max", .num false maxVal),
     ("explanation", .str "")]
  | _ =>
    [("points", .num false 0), ("max", .num false maxVal), ("explanation", .str "")]

def normalizeBonusAux (bs : JVal) : List (String × Int) → Except String (List (String × JVal))
  | [] => .ok []
  | (k, mv) :: rest =>
    match memIn k bs with
    | .error e => .error e
    | .ok true =>
      match bs with
      | .obj fs =>
        match normalizeBonusAux bs rest with
        | .error e => .error e
        | .ok tail => .ok ((k, .obj (normBonusComponent mv (objGet k fs))) :: tail)
      | _ => .error "TypeError: indexing a non-dict bonus_scores"
    | .ok false =>
      match normalizeBonusAux bs rest with
      | .error e => .error e
      | .ok tail => .ok ((k, .obj (normBonusComponent mv none)) :: tail)

/-- Lines 1847-1874: the normalised bonus_scores dict. -/
def normalizeBonusFull (bs : JVal) : Except String (List (String × JVal)) :=
  normalizeBonusAux bs bonusMaxList

/-- Lines 1788-1791: copy a legacy `total_score` into
`overall_score_0_100` when only the legacy key is present. -/
def scoringWithOverall (fs : List (String × JVal)) : List (String × JVal) :=
  if !objHas "overall_score_0_100" fs && objHas "total_score" fs then
    objSet "overall_score_0_100" (objGetD "total_score" fs .null) fs
  else fs

/-- Lines 1847-1876: normalise bonus_scores when present and return the
final output object. -/
def attachBonus (fs3 : List (String × JVal)) : Except String JVal :=
  if objHas "bonus_scores" fs3 then
    match normalizeBonusFull (objGetD "bonus_scores" fs3 .null) with
    | .error e => .error e
    | .ok nb => .ok (.obj (objSet "bonus_scores" (.obj nb) fs3))
  else .ok (.obj fs3)

/-- Lines 1792-1876 on the key-normalised object. -/
def normalizeScoringObj (fs2 : List (String × JVal)) : Except String JVal :=
  if !objHas "rubric_scores" fs2 then
    .error "Missing rubric_scores in response"
  else
    match normalizeRubricFull (objGetD "rubric_scores" fs2 (.obj [])) with
    | .error e => .error e
    | .ok normalized => attachBonus (objSet "rubric_scores" (.obj normalized) fs2)

/-- Lines 1779-1876: validation and normalisation of a strictly parsed
output. A non-dict output always raises before returning (the membership
tests, assignments or attribute accesses fail), modelled by `.error`. -/
def normalizeScoringOutput (output : JVal) : Except String JVal :=
  match output with
  | .obj fs =>
    if !objHas "overall_score_0_100" fs && !objHas "total_score" fs then
      .error "Missing overall_score_0_100 or total_score in response"
    else
      normalizeScoringObj (scoringWithOverall fs)
  | _ => .error "TypeError: non-dict scoring output"

/-! ## Fenced-code-block regex scanners -/

/-- Does `\s*` followed by a triple backtick match at this position (the
whitespace run before a non-space literal is forced, so no backtracking)? -/
def wsFence (s : List Char) : Bool :=
  startsWithL ['\x60', '\x60', '\x60'] (s.dropWhile pySpaceChar)

/-- The lazy capture `(\{.*?\})` (when `needClose`) or `(\{.*?)` followed by
`\s*` and a closing fence: the shortest capture whose remainder matches. -/
def lazyScan (needClose : Bool) : Nat → List Char → List Char → Option (List Char)
  | 0, _, _ => none
  | fuel + 1, acc, rem =>
    if (!needClose || acc.getLastD ' ' = '\x7d') && wsFence rem then some acc
    else
      match rem with
      | [] => none
      | c :: rest => lazyScan needClose fuel (acc ++ [c]) rest

/-- `re.search` for the fenced-block patterns of main.py 768/1900
(`needClose = false`) and 1880 (`needClose = true`,
`r"```(?:json)?\s*(\{.*?\})\s*```"` with DOTALL): try every position, first
a literal fence, an optional "json", forced whitespace, an opening brace,
then the lazy capture. -/
def findFenced (needClose : Bool) : Nat → List Char → Option (List Char)
  | 0, _ => none
  | _, [] => none
  | fuel + 1, s =>
    (if startsWithL ['\x60', '\x60', '\x60'] s then
      let afterFence := s.drop 3
      let tryFrom (t : List Char) : Option (List Char) :=
        match t.dropWhile pySpaceChar with
        | '\x7b' :: tailPart => lazyScan needClose (tailPart.length + 1) ['\x7b'] tailPart
        | _ => none
      match (if startsWithL "json".toList afterFence then
               match tryFrom (afterFence.drop 4) with
               | some g => some g
               | none => tryFrom afterFence
             else tryFrom afterFence) with
      | some g => some g
      | none => findFenced needClose fuel s.tail
    else findFenced needClose fuel s.tail)

def findFencedBlock (needClose : Bool) (s : List Char) : Option (List Char) :=
  findFenced needClose (s.length + 1) s

/-! ## parse_scoring_output: decode-error path and entry point -/

/-- Lines 1908-1915 and 1917-1935: slice from the first opening brace and
parse, else the final typed error. -/
def parseScoringFindBrace (raw : String) : Except String JVal :=
  match findCharL '\x7b' raw.toList with
  | some i =>
    match jsonLoadsL (raw.toList.drop i) with
    | some out => .ok out
    | none => .error "Could not parse JSON from LLM response"
  | none => .error "Could not parse JSON from LLM response"

/-- Lines 1899-1935: after a successful extraction and validation the code
falls through to a second fence search and returns its parse UNNORMALISED
(line 1904), else slices from the first brace. -/
def parseScoringTail (raw : String) : Except String JVal :=
  match findFencedBlock false raw.toList with
  | some g2 =>
    match jsonLoadsL g2 with
    | some out => .ok out
    | none => parseScoringFindBrace raw
  | none => parseScoringFindBrace raw

/-- Lines 1877-1898: the `json.JSONDecodeError` handler; a fenced block is
extracted with the brace-closed pattern, re-parsed and key-validated, after
which control falls through to `parseScoringTail`. -/
def parseScoringExceptPath (raw : String) : Except String JVal :=
  match findFencedBlock true raw.toList with
  | some g1 =>
    match jsonLoadsL g1 with
    | some out1 =>
      match memIn "overall_score_0_100" out1 with
      | .error e => .error e
      | .ok false => .error "Could not parse JSON from LLM response: missing overall_score_0_100"
      | .ok true =>
        match memIn "rubric_scores" out1 with
        | .error e => .error e
        | .ok false => .error "Could not parse JSON from LLM response: missing rubric_scores"
        | .ok true => parseScoringTail raw
    | none => .error "Could not parse JSON from LLM response"
  | none => .error "Could not parse JSON from LLM response"

/-- Embedding of `parse_scoring_output` (main.py 1764-1935). -/
def parseScoringOutput (raw : String) : Except String JVal :=
  match jsonLoadsL (stripFences raw) with
  | some output => normalizeScoringOutput output
  | none => parseScoringExceptPath raw

/-- Projection used by the C1 statements: one field of one normalised rubric
component of a parse result. -/
def scoringComponentField (res : Except String JVal) (k field : String) : Option JVal :=
  match res with
  | .ok (.obj fs) =>
    match objGet "rubric_scores" fs with
    | some (.obj rs) =>
      match objGet k rs with
      | some (.obj comp) => objGet field comp
      | _ => none
    | _ => none
  | _ => none
lemma objGet_objSet_self (k : String) (v : JVal) (fs : List (String × JVal)) :
    objGet k (objSet k v fs) = some v := by
  induction fs with
  | nil => simp [objSet, objGet]
  | cons p rest ih =>
    obtain ⟨l, w⟩ := p
    by_cases h : l = k
    · subst h
      simp [objSet, objGet]
    · simp only [objSet, objGet, if_neg h]
      exact ih

lemma objGet_objSet_ne (k k' : String) (v : JVal) (fs : List (String × JVal))
    (h : k ≠ k') : objGet k (objSet k' v fs) = objGet k fs := by
  induction fs with
  | nil => simp [objSet, objGet, Ne.symm h]
  | cons p rest ih =>
    obtain ⟨l, w⟩ := p
    by_cases hl : l = k'
    · subst hl
      simp [objSet, objGet, Ne.symm h]
    · by_cases hk : l = k
      · simp [objSet, objGet, hl, hk, h]
      · simp only [objSet, objGet, if_neg hl, if_neg hk]
        exact ih

lemma roundPoints_int (k : String) (comp0 comp : List (String × JVal))
    (h : roundPoints k comp0 = .ok comp) (hk : k ≠ "screenshots_evidence") :
    ∃ n : Int, objGet "points" comp = some (.num false n) := by
  rw [roundPoints, if_pos hk] at h
  cases hf : pyFloatJ (objGetD "points" comp0 (.num false 0)) with
  | ok q =>
    rw [hf] at h
    simp only [Except.ok.injEq] at h
    exact ⟨pyRound q, by rw [← h]; exact objGet_objSet_self _ _ _⟩
  | error e =>
    rw [hf] at h
    by_cases ht : pyTruthy (objGetD "points" comp0 (.num false 0)) = false
    · rw [if_pos ht] at h
      simp only [Except.ok.injEq] at h
      exact ⟨0, by rw [← h]; exact objGet_objSet_self _ _ _⟩
    · rw [if_neg ht] at h
      cases hi : pyIntJ (objGetD "points" comp0 (.num false 0)) with
      | some n =>
        rw [hi] at h
        simp only [Except.ok.injEq] at h
        exact ⟨n, by rw [← h]; exact objGet_objSet_self _ _ _⟩
      | none => rw [hi] at h; exact absurd h (by simp)

lemma roundPoints_preserves_explanation (k : String) (comp0 comp : List (String × JVal))
    (h : roundPoints k comp0 = .ok comp) (e : JVal)
    (he : objGet "explanation" comp0 = some e) :
    objGet "explanation" comp = some e := by
  rw [roundPoints] at h
  by_cases hk : k ≠ "screenshots_evidence"
  · rw [if_pos hk] at h
    cases hf : pyFloatJ (objGetD "points" comp0 (.num false 0)) with
    | ok q =>
      rw [hf] at h
      simp only [Except.ok.injEq] at h
      rw [← h, objGet_objSet_ne _ _ _ _ (by decide), he]
    | error u =>
      rw [hf] at h
      by_cases ht : pyTruthy (objGetD "points" comp0 (.num false 0)) = false
      · rw [if_pos ht] at h
        simp only [Except.ok.injEq] at h
        rw [← h, objGet_objSet_ne _ _ _ _ (by decide), he]
      · rw [if_neg ht] at h
        cases hi : pyIntJ (objGetD "points" comp0 (.num false 0)) with
        | some n =>
          rw [hi] at h
          simp only [Except.ok.injEq] at h
          rw [← h, objGet_objSet_ne _ _ _ _ (by decide), he]
        | none => rw [hi] at h; exact absurd h (by simp)
  · rw [if_neg hk] at h
    simp only [Except.ok.injEq] at h
    rw [← h, he]

lemma normComponent_explanation_default (mv : Int) (v : Option JVal)
    (habs : ∀ vfs, v = some (.obj vfs) → objGet "explanation" vfs = none) :
    objGet "explanation" (normComponent mv v) = some (.str "No explanation provided.") := by
  match v with
  | none => rfl
  | some .null => rfl
  | some (.bool b) => rfl
  | some (.num f q) => rfl
  | some (.str s) => rfl
  | some (.arr xs) => rfl
  | some (.obj vfs) =>
    rw [normComponent]
    by_cases hp : objHas "points" vfs = true
    · rw [if_pos hp]
      have hnone := habs vfs rfl
      simp only [objGet, objGetD, hnone]
      rfl
    · rw [if_neg hp]
      rfl

lemma normRubricEntry_int (rs : JVal) (k : String) (mv : Int)
    (comp : List (String × JVal)) (h : normRubricEntry rs k mv = .ok comp)
    (hk : k ≠ "screenshots_evidence") :
    ∃ n : Int, objGet "points" comp = some (.num false n) := by
  cases rs with
  | obj fs => exact roundPoints_int k _ comp h hk
  | arr xs =>
    rw [normRubricEntry] at h
    by_cases hc : xs.any (fun x => pyEq x (.str k)) = true
    · rw [if_pos hc] at h; exact absurd h (by simp)
    · rw [if_neg hc] at h; exact roundPoints_int k _ comp h hk
  | str s =>
    rw [normRubricEntry] at h
    by_cases hc : (findSubL k.toList s.toList).isSome = true
    · rw [if_pos hc] at h; exact absurd h (by simp)
    · rw [if_neg hc] at h; exact roundPoints_int k _ comp h hk
  | null => exact absurd h (by simp [normRubricEntry])
  | bool b => exact absurd h (by simp [normRubricEntry])
  | num f q => exact absurd h (by simp [normRubricEntry])

lemma normRubricEntry_explanation (fs : List (String × JVal)) (k : String) (mv : Int)
    (comp : List (String × JVal)) (h : normRubricEntry (.obj fs) k mv = .ok comp)
    (habs : ∀ vfs, objGet k fs = some (.obj vfs) → objGet "explanation" vfs = none) :
    objGet "explanation" comp = some (.str "No explanation provided.") := by
  exact roundPoints_preserves_explanation k _ comp h _
    (normComponent_explanation_default mv (objGet k fs) habs)

lemma normRubricEntry_screenshots (fs : List (String × JVal)) (mv : Int)
    (comp : List (String × JVal)) (vfs : List (String × JVal)) (p : JVal)
    (h : normRubricEntry (.obj fs) "screenshots_evidence" mv = .ok comp)
    (hv : objGet "screenshots_evidence" fs = some (.obj vfs))
    (hp : objGet "points" vfs = some p) :
    objGet "points" comp = some p := by
  have h2 : roundPoints "screenshots_evidence"
      (normComponent mv (objGet "screenshots_evidence" fs)) = .ok comp := h
  rw [roundPoints, if_neg (by simp)] at h2
  simp only [Except.ok.injEq] at h2
  rw [← h2, hv, normComponent, if_pos (by rw [objHas, hp]; rfl)]
  simp only [objGet, objGetD, hp]
  rfl

lemma normalizeRubricAux_lookup :
    ∀ (ks : List (String × Int)) (rs : JVal) (normalized : List (String × JVal)),
      normalizeRubricAux rs ks = .ok normalized →
      ∀ (k : String) (mv : Int), (k, mv) ∈ ks → (ks.map Prod.fst).Nodup →
      ∃ comp, normRubricEntry rs k mv = .ok comp ∧
        objGet k normalized = some (.obj comp) := by
  intro ks
  induction ks with
  | nil => intro rs normalized _ k mv hk; exact absurd hk (List.not_mem_nil _)
  | cons p rest ih =>
    intro rs normalized h k mv hk hnd
    obtain ⟨k0, mv0⟩ := p
    rw [normalizeRubricAux] at h
    cases he : normRubricEntry rs k0 mv0 with
    | error e => rw [he] at h; exact absurd h (by simp)
    | ok comp0 =>
      rw [he] at h
      cases ht : normalizeRubricAux rs rest with
      | error e => rw [ht] at h; exact absurd h (by simp)
      | ok tail =>
        rw [ht] at h
        simp only [Except.ok.injEq] at h
        rcases List.mem_cons.mp hk with hk1 | hk1
        · have hk1a : k = k0 := congrArg Prod.fst hk1
          have hk1b : mv = mv0 := congrArg Prod.snd hk1
          subst hk1a
          subst hk1b
          refine ⟨comp0, he, ?_⟩
          rw [← h, objGet, if_pos rfl]
        · have hknd : (rest.map Prod.fst).Nodup := (List.nodup_cons.mp hnd).2
          obtain ⟨comp, hcomp, hget⟩ := ih rs tail ht k mv hk1 hknd
          refine ⟨comp, hcomp, ?_⟩
          have hne : k0 ≠ k := by
            intro hEq
            subst hEq
            exact (List.nodup_cons.mp hnd).1
              (List.mem_map.mpr ⟨(k0, mv), hk1, rfl⟩)
          rw [← h, objGet, if_neg hne]
          exact hget


def rubricSourceOf : JVal → JVal
  | .obj fs => objGetD "rubric_scores" fs (.obj [])
  | v => v

lemma attachBonus_rubric (fs3 : List (String × JVal)) (res : JVal)
    (h : attachBonus fs3 = .ok res) :
    ∃ fsOut, res = .obj fsOut ∧ objGet "rubric_scores" fsOut = objGet "rubric_scores" fs3 := by
  rw [attachBonus] at h
  split at h
  · split at h
    · exact absurd h (by simp)
    · simp only [Except.ok.injEq] at h
      exact ⟨_, h.symm, objGet_objSet_ne _ _ _ _ (by decide)⟩
  · simp only [Except.ok.injEq] at h
    exact ⟨fs3, h.symm, rfl⟩

lemma normalizeScoringObj_rubric (fs2 : List (String × JVal)) (res : JVal)
    (h : normalizeScoringObj fs2 = .ok res) :
    ∃ normalized, normalizeRubricFull (objGetD "rubric_scores" fs2 (.obj [])) = .ok normalized ∧
      ∃ fsOut, res = .obj fsOut ∧ objGet "rubric_scores" fsOut = some (.obj normalized) := by
  rw [normalizeScoringObj] at h
  split at h
  · exact absurd h (by simp)
  · split at h
    · exact absurd h (by simp)
    · next normalized heq =>
      obtain ⟨fsOut, hres, hget⟩ := attachBonus_rubric _ _ h
      exact ⟨normalized, heq, fsOut, hres, by rw [hget, objGet_objSet_self]⟩

lemma scoringWithOverall_rubric (fs : List (String × JVal)) :
    objGetD "rubric_scores" (scoringWithOverall fs) (.obj []) =
      objGetD "rubric_scores" fs (.obj []) := by
  rw [scoringWithOverall]
  split
  · rw [objGetD, objGetD, objGet_objSet_ne _ _ _ _ (by decide)]
    rfl
  · rfl

lemma parseScoringOutput_direct (raw : String) (out res : JVal)
    (hj : jsonLoadsL (stripFences raw) = some out)
    (hok : parseScoringOutput raw = .ok res) :
    ∃ normalized, normalizeRubricFull (rubricSourceOf out) = .ok normalized ∧
      ∃ fsOut, res = .obj fsOut ∧ objGet "rubric_scores" fsOut = some (.obj normalized) := by
  rw [parseScoringOutput, hj] at hok
  cases out with
  | null => exact absurd hok (by simp [normalizeScoringOutput])
  | bool b => exact absurd hok (by simp [normalizeScoringOutput])
  | num f q => exact absurd hok (by simp [normalizeScoringOutput])
  | str s => exact absurd hok (by simp [normalizeScoringOutput])
  | arr xs => exact absurd hok (by simp [normalizeScoringOutput])
  | obj fs =>
    simp only [normalizeScoringOutput] at hok
    split at hok
    · exact absurd hok (by simp)
    · obtain ⟨normalized, hn, rest⟩ := normalizeScoringObj_rubric _ _ hok
      rw [scoringWithOverall_rubric] at hn
      exact ⟨normalized, hn, rest⟩

/-- A scoring response whose violation_quality points exceed the component
maximum. -/
def C1rawOver : String :=
  "\x7b\"overall_score_0_100\": 80, \"rubric_scores\": \x7b\"violation_quality\": \x7b\"points\": 25, \"max\": 20, \"explanation\": \"x\"\x7d\x7d\x7d"

set_option maxRecDepth 100000 in
/-- C1. The claim says every component points value is clamped to [0, max].
parse_scoring_output contains no clamping: a violation_quality of 25 with
max 20 passes through normalisation (only rounded), so the produced scoring
output carries points = 25 above max = 20. -/
theorem C1_no_clamping_counterexample :
    scoringComponentField (parseScoringOutput C1rawOver) "violation_quality" "points" =
      some (.num false 25) ∧
    scoringComponentField (parseScoringOutput C1rawOver) "violation_quality" "max" =
      some (.num false 20) := ⟨rfl, rfl⟩

/-- C1 (amended). For a scoring output produced through the direct-parse
path of parse_scoring_output, every rubric component is present as a
`points/max/explanation` object; every component except
screenshots_evidence carries integer points (rounded from object form,
truncated from bare-number form); a component whose incoming object lacks
an explanation (or is not an object at all) receives the default
explanation "No explanation provided."; object-form screenshots_evidence
points (for example 7.5) pass through unmodified. Points are NOT clamped to
[0, max], and the code-block fallback path returns un-normalised output. -/
theorem C1_scoring_normalisation_amended (raw : String) (out res : JVal)
    (hj : jsonLoadsL (stripFences raw) = some out)
    (hok : parseScoringOutput raw = .ok res)
    (k : String) (mv : Int) (hk : (k, mv) ∈ maxPointsList) :
    ∃ fsOut normalized comp,
      res = .obj fsOut ∧
      objGet "rubric_scores" fsOut = some (.obj normalized) ∧
      objGet k normalized = some (.obj comp) ∧
      (k ≠ "screenshots_evidence" → ∃ n : Int, objGet "points" comp = some (.num false n)) ∧
      (∀ fs0, rubricSourceOf out = .obj fs0 →
        (∀ vfs, objGet k fs0 = some (.obj vfs) → objGet "explanation" vfs = none) →
        objGet "explanation" comp = some (.str "No explanation provided.")) ∧
      (∀ fs0 vfs p, k = "screenshots_evidence" → rubricSourceOf out = .obj fs0 →
        objGet k fs0 = some (.obj vfs) → objGet "points" vfs = some p →
        objGet "points" comp = some p) := by
  obtain ⟨normalized, hn, fsOut, hres, hget⟩ := parseScoringOutput_direct raw out res hj hok
  obtain ⟨comp, hentry, hcget⟩ :=
    normalizeRubricAux_lookup maxPointsList (rubricSourceOf out) normalized hn k mv hk (by decide)
  refine ⟨fsOut, normalized, comp, hres, hget, hcget, ?_, ?_, ?_⟩
  · intro hkne
    exact normRubricEntry_int _ k mv comp hentry hkne
  · intro fs0 hsrc habs
    rw [hsrc] at hentry
    exact normRubricEntry_explanation fs0 k mv comp hentry habs
  · intro fs0 vfs p hks hsrc hv hp
    subst hks
    rw [hsrc] at hentry
    exact normRubricEntry_screenshots fs0 mv comp vfs p hentry hv hp

/-- A legacy-keyed scoring response with a half-point screenshots_evidence
object and no explanations. -/
def C1demoRaw : String :=
  "\x7b\"total_score\": 77, \"rubric_scores\": \x7b\"screenshots_evidence\": \x7b\"points\": 7.5, \"max\": 10\x7d, \"coverage\": \x7b\"points\": 7.5, \"max\": 15\x7d, \"writing_quality\": 9.5\x7d\x7d"

set_option maxRecDepth 100000 in
/-- C1 witness: the amended theorem applied to the concrete demo response
at the screenshots_evidence component. -/
theorem C1_scoring_normalisation_witness :
    ∃ fsOut normalized comp,
      (parseScoringOutput C1demoRaw).toOption.getD .null = .obj fsOut ∧
      objGet "rubric_scores" fsOut = some (.obj normalized) ∧
      objGet "screenshots_evidence" normalized = some (.obj comp) ∧
      ("screenshots_evidence" ≠ "screenshots_evidence" →
        ∃ n : Int, objGet "points" comp = some (.num false n)) ∧
      (∀ fs0, rubricSourceOf ((jsonLoadsL (stripFences C1demoRaw)).getD .null) = .obj fs0 →
        (∀ vfs, objGet "screenshots_evidence" fs0 = some (.obj vfs) →
          objGet "explanation" vfs = none) →
        objGet "explanation" comp = some (.str "No explanation provided.")) ∧
      (∀ fs0 vfs p, "screenshots_evidence" = "screenshots_evidence" →
        rubricSourceOf ((jsonLoadsL (stripFences C1demoRaw)).getD .null) = .obj fs0 →
        objGet "screenshots_evidence" fs0 = some (.obj vfs) →
        objGet "points" vfs = some p →
        objGet "points" comp = some p) :=
  C1_scoring_normalisation_amended C1demoRaw
    ((jsonLoadsL (stripFences C1demoRaw)).getD .null)
    ((parseScoringOutput C1demoRaw).toOption.getD .null)
    rfl rfl "screenshots_evidence" 10 (by decide)

/-! ## extract_partial_json (main.py 180-263), used by the C5 ladder -/

/-- Scanner for `re.search(r'"key"\s*:\s*"([^"]*)"', s)`: at each position a
quoted key literal, colon with whitespace, then a quoted capture (a closing
quote must exist, otherwise the engine moves on). -/
def searchKeyString (key : List Char) : Nat → List Char → Option (List Char)
  | 0, _ => none
  | _, [] => none
  | fuel + 1, s =>
    (if ('"' :: key ++ ['"']).isPrefixOf s then
      let a1 := (s.drop (key.length + 2)).dropWhile pySpaceChar
      match a1 with
      | ':' :: a2 =>
        match a2.dropWhile pySpaceChar with
        | '"' :: a4 =>
          let cap := a4.takeWhile (· ≠ '"')
          if cap.length < a4.length then some cap
          else searchKeyString key fuel s.tail
        | _ => searchKeyString key fuel s.tail
      | _ => searchKeyString key fuel s.tail
    else searchKeyString key fuel s.tail)

/-- Scanner for `re.search(r'"skip_analysis"\s*:\s*(true|false)', s)`. -/
def searchKeyBool (key : List Char) : Nat → List Char → Option Bool
  | 0, _ => none
  | _, [] => none
  | fuel + 1, s =>
    (if ('"' :: key ++ ['"']).isPrefixOf s then
      let a1 := (s.drop (key.length + 2)).dropWhile pySpaceChar
      match a1 with
      | ':' :: a2 =>
        let a3 := a2.dropWhile pySpaceChar
        if startsWithL "true".toList a3 then some true
        else if startsWithL "false".toList a3 then some false
        else searchKeyBool key fuel s.tail
      | _ => searchKeyBool key fuel s.tail
    else searchKeyBool key fuel s.tail)

/-- The score-field pattern of main.py 219/245: quoted key, colon, an open
brace immediately followed by `"points"`, an integer, a comma, whitespace,
`"max"`, an integer, and an optional quoted comment group. -/
def matchScoreBody (s : List Char) : Option (Nat × Nat × Option (List Char)) :=
  match s.dropWhile pySpaceChar with
  | ':' :: a2 =>
    match a2.dropWhile pySpaceChar with
    | '\x7b' :: a3 =>
      if ("\"points\"".toList).isPrefixOf a3 then
        let a4 := (a3.drop 8).dropWhile pySpaceChar
        match a4 with
        | ':' :: a5 =>
          let a6 := a5.dropWhile pySpaceChar
          let d1 := a6.takeWhile isAsciiDigit
          if d1 = [] then none
          else
            match a6.drop d1.length with
            | ',' :: a7 =>
              let a8 := a7.dropWhile pySpaceChar
              if ("\"max\"".toList).isPrefixOf a8 then
                let a9 := (a8.drop 5).dropWhile pySpaceChar
                match a9 with
                | ':' :: a10 =>
                  let a11 := a10.dropWhile pySpaceChar
                  let d2 := a11.takeWhile isAsciiDigit
                  if d2 = [] then none
                  else
                    let a12 := a11.drop d2.length
                    let commentCap : Option (List Char) :=
                      match a12 with
                      | ',' :: a13 =>
                        let a14 := a13.dropWhile pySpaceChar
                        if ("\"comment\"".toList).isPrefixOf a14 then
                          let a15 := (a14.drop 9).dropWhile pySpaceChar
                          match a15 with
                          | ':' :: a16 =>
                            match a16.dropWhile pySpaceChar with
                            | '"' :: a17 =>
                              let cap := a17.takeWhile (· ≠ '"')
                              if cap.length < a17.length then some cap else none
                            | _ => none
                          | _ => none
                        else none
                      | _ => none
                    some (digitsToNat d1, digitsToNat d2, commentCap)
                | _ => none
              else none
            | _ => none
        | _ => none
      else none
    | _ => none
  | _ => none

/-- Scanner for the full score-field regex, trying every position. -/
def searchScoreField (key : List Char) : Nat → List Char → Option (Nat × Nat × Option (List Char))
  | 0, _ => none
  | _, [] => none
  | fuel + 1, s =>
    (if ('"' :: key ++ ['"']).isPrefixOf s then
      match matchScoreBody (s.drop (key.length + 2)) with
      | some r => some r
      | none => searchScoreField key fuel s.tail
    else searchScoreField key fuel s.tail)

/-- The per-component score fields and default maxima of main.py 205-215. -/
def truncScoreFields : List (String × Nat) :=
  [("coverage", 15), ("violation_quality", 20), ("screenshots", 10),
   ("severity_analysis", 10), ("structure_navigation", 10),
   ("professional_quality", 10), ("writing_quality", 10), ("group_integration", 15)]

/-- The bonus fields and maxima of main.py 240-242. -/
def truncBonusFields : List (String × Nat) :=
  [("bonus_ai_opportunities", 3), ("bonus_exceptional_quality", 1)]

/-- One extracted score component (main.py 217-233). -/
def truncScoreEntry (js : List Char) (key : String) (mv : Nat) (dfltComment : String) :
    String × JVal :=
  match searchScoreField key.toList (js.length + 1) js with
  | some (p, m, c) =>
    (key, .obj [("points", .num false (mkRat p 1)), ("max", .num false (mkRat m 1)),
                ("comment", .str (match c with
                  | some cs => if cs ≠ [] then String.mk cs else ""
                  | none => ""))])
  | none =>
    (key, .obj [("points", .num false 0), ("max", .num false (mkRat mv 1)),
                ("comment", .str dfltComment)])

/-- Embedding of `extract_partial_json` (main.py 180-263). -/
def extractPartialJson (js : List Char) (pageNumber : Int) : List (String × JVal) :=
  let base : List (String × JVal) :=
    [("page_number", .num false (mkRat pageNumber 1)),
     ("skip_analysis", .bool false),
     ("page_type", .str "Unknown"),
     ("feedback", .str ""),
     ("error", .str "JSON was truncated, extracted partial data")]
  let base :=
    match searchKeyString "page_type".toList (js.length + 1) js with
    | some cap => objSet "page_type" (.str (String.mk cap)) base
    | none => base
  let base :=
    match searchKeyString "feedback".toList (js.length + 1) js with
    | some cap => objSet "feedback" (.str (String.mk (cap.take 1000))) base
    | none => base
  let base :=
    match searchKeyBool "skip_analysis".toList (js.length + 1) js with
    | some b => objSet "skip_analysis" (.bool b) base
    | none => base
  let scoreBreakdown := truncScoreFields.map
    (fun p => truncScoreEntry js p.1 p.2 "Partial analysis - JSON truncated")
  let bonusScores := truncBonusFields.map
    (fun p => truncScoreEntry js p.1 p.2 "")
  base ++ [("score_breakdown", .obj scoreBreakdown), ("bonus_scores", .obj bonusScores)]

/-! ## analyze_single_page JSON-resilience ladder (main.py 759-866) -/

/-- The parse ladder of main.py 759-813 together with the final falsy check at
805-813: strict json.loads, then the fenced-block fallback, then the
brace-slice fallback with comma repair and partial extraction. Returns the
analysis value together with the internal used_fallback flag (set at 774, 786,
794, 798 and 812; the flag is only ever printed at 802-803). The truthiness
tests at 779 and 805 follow Python `if not analysis_json`. -/
def analyzePageParse (rt : List Char) (pageNumber : Int) : JVal × Bool :=
  let step1 : Option JVal × Bool :=
    match jsonLoadsL rt with
    | some j => (some j, false)
    | none =>
      let a1 : Option JVal :=
        match findFencedBlock false rt with
        | some blk => jsonLoadsL (fixIncompleteJsonL blk)
        | none => none
      if !pyTruthyO a1 then
        match findCharL '\x7b' rt with
        | some idx =>
          let js1 := fixIncompleteJsonL (rt.drop idx)
          match jsonLoadsL js1 with
          | some j => (some j, true)
          | none =>
            let js2 := fixIncompleteJsonL (reSubCommaClose ']' (reSubCommaClose '\x7d' js1))
            match jsonLoadsL js2 with
            | some j => (some j, true)
            | none => (some (.obj (extractPartialJson js2 pageNumber)), true)
        | none => (a1, a1.isSome)
      else (a1, true)
  match step1 with
  | (aj, uf) =>
    if !pyTruthyO aj then
      (.obj [("page_number", .num false (mkRat pageNumber 1)),
             ("skip_analysis", .bool false),
             ("page_type", .str "Unknown"),
             ("feedback", .str (if !rt.isEmpty then String.mk (rt.take 1000)
                                else "No response generated")),
             ("error", .str "Could not parse structured JSON from response")], true)
    else (aj.getD .null, uf)

/-- The role_to_type map of main.py 3912-3920. -/
def roleToTypeTable : List (String × String) :=
  [("intro", "introduction page"), ("group_collab", "group collaboration page"),
   ("heuristic_explainer", "heuristic explainer page"),
   ("violation_detail", "heuristic violation analysis"),
   ("severity_summary", "severity summary page"),
   ("conclusion", "conclusion page"), ("other", "other")]

/-- `role_to_type.get(page_analysis.get("page_role", "other"), "other")`
(main.py 3921): hashable non-string keys fall to the default, unhashable
ones raise (exception messages are abstracted throughout this embedding). -/
def roleToType (v : JVal) : Except String String :=
  match v with
  | .str s => .ok (((roleToTypeTable.filter (fun p => p.1 = s)).headD ("", "other")).2)
  | .arr _ => .error "TypeError: unhashable type"
  | .obj _ => .error "TypeError: unhashable type"
  | _ => .ok "other"

/-- `page_analysis.get("fragments", [])` followed by iteration (main.py
3924-3925): lists iterate their elements; empty strings and dicts iterate
nothing; any other shape raises on iteration or on the first `frag.get`. -/
def fragmentsOf (fs : List (String × JVal)) : Except String (List JVal) :=
  match objGet "fragments" fs with
  | none => .ok []
  | some (.arr xs) => .ok xs
  | some (.str s) => if s = "" then .ok [] else .error "AttributeError: str has no get"
  | some (.obj o) => if o.isEmpty then .ok [] else .error "AttributeError: str has no get"
  | some _ => .error "TypeError: not iterable"

/-- The heuristic-number extraction of main.py 3927-3936 for one fragment. -/
def fragHeuristicNum (hid : List Char) : Option Nat :=
  if startsWithL ['H'] hid && hid.length > 1 then
    let numStr := beforeCharL '_' (hid.drop 1)
    if pyIsDigitL numStr then some (digitsToNat numStr) else none
  else none

/-- One iteration of the violations loop (main.py 3926-3946): a non-dict
fragment raises, a non-string heuristic_id raises at `.startswith`. -/
def fragToViolation (frag : JVal) : Except String (Option JVal) :=
  match frag with
  | .obj ffs =>
    match objGetD "heuristic_id" ffs (.str "") with
    | .str hid =>
      match fragHeuristicNum hid.toList with
      | some n =>
        if 1 ≤ n && n ≤ 10 then
          .ok (some (.obj [("heuristic_num", .num false (mkRat n 1)),
                           ("heuristic_number", .num false (mkRat n 1)),
                           ("heuristic_name", .str ("Heuristic " ++ toString n)),
                           ("description", objGetD "text_summary" ffs (.str "")),
                           ("severity", objGetD "severity_hint" ffs (.str ""))]))
        else .ok none
      | none => .ok none
    | _ => .error "AttributeError: no startswith"
  | _ => .error "AttributeError: no get"

def violationsOf : List JVal → Except String (List JVal)
  | [] => .ok []
  | f :: rest =>
    match fragToViolation f with
    | .error e => .error e
    | .ok ov =>
      match violationsOf rest with
      | .error e => .error e
      | .ok vs => .ok (match ov with | some v => v :: vs | none => vs)

/-- One feedback line per fragment (main.py 3957): a non-dict fragment
raises at `.get`. -/
def fragFeedbackLine (frag : JVal) : Except String String :=
  match frag with
  | .obj ffs =>
    .ok ("- " ++ pyStrJ (objGetD "heuristic_id" ffs (.str "Unknown")) ++ ": "
         ++ pyStrJ (objGetD "text_summary" ffs (.str "")))
  | _ => .error "AttributeError: no get"

def fragFeedbackLines : List JVal → Except String (List String)
  | [] => .ok []
  | f :: rest =>
    match fragFeedbackLine f with
    | .error e => .error e
    | .ok l =>
      match fragFeedbackLines rest with
      | .error e => .error e
      | .ok ls => .ok (l :: ls)

/-- The severity_summary feedback block of main.py 3961-3967: a truthy
non-dict summary raises at `.get`. -/
def severityFeedback (fs : List (String × JVal)) : Except String (List String) :=
  let sv := objGetD "severity_summary" fs .null
  if pyTruthy sv then
    match sv with
    | .obj so =>
      let line := "Severity Summary: " ++ pyStrJ (objGetD "visualization" so (.str "unknown"))
        ++ " visualization, coverage: " ++ pyStrJ (objGetD "coverage_scope" so (.str "unclear"))
        ++ ", clarity: " ++ pyStrJ (objGetD "mapping_clarity" so (.str "unclear"))
      let note := objGetD "llm_note" so .null
      .ok (if pyTruthy note then [line, "Note: " ++ pyStrJ note] else [line])
    | _ => .error "AttributeError: no get"
  else .ok []

/-- The compelling computation of main.py 3972-3975: count values equal to
"high" in rubric_relevance; a present non-dict value raises at `.values()`. -/
def compellingOf (fs : List (String × JVal)) : Except String Bool :=
  match objGet "rubric_relevance" fs with
  | none => .ok false
  | some (.obj ro) =>
    .ok (decide (2 ≤ (ro.filter (fun p => pyEq p.2 (.str "high"))).length))
  | some _ => .error "AttributeError: no values"

/-- Embedding of `convert_page_analysis_to_legacy` (main.py 3900-3977) for a
dict argument: the legacy record has exactly the keys page_number,
skip_analysis, page_type, extracted_violations, feedback and compelling. -/
def convertPageAnalysisToLegacy (fs : List (String × JVal)) (pageNumber : Int) :
    Except String (List (String × JVal)) :=
  match roleToType (objGetD "page_role" fs (.str "other")) with
  | .error e => .error e
  | .ok ptype =>
    match fragmentsOf fs with
    | .error e => .error e
    | .ok frags =>
      match violationsOf frags with
      | .error e => .error e
      | .ok viols =>
        let mh := objGetD "main_heading" fs .null
        let headParts := if pyTruthy mh then ["Page Title: " ++ pyStrJ mh] else []
        match (if !frags.isEmpty then
                 match fragFeedbackLines frags with
                 | .error e => .error e
                 | .ok ls => .ok (("Found " ++ toString frags.length ++ " heuristic issue(s):") :: ls)
               else .ok ["No specific heuristic violations identified on this page."] :
               Except String (List String)) with
        | .error e => .error e
        | .ok fragParts =>
          match severityFeedback fs with
          | .error e => .error e
          | .ok sevParts =>
            match compellingOf fs with
            | .error e => .error e
            | .ok comp =>
              .ok [("page_number", .num false (mkRat pageNumber 1)),
                   ("skip_analysis", .bool false),
                   ("page_type", .str ptype),
                   ("extracted_violations", .arr viols),
                   ("feedback", .str (String.intercalate "\n" (headParts ++ fragParts ++ sevParts))),
                   ("compelling", .bool comp)]

/-- Lines 815-832: page_number fixup by Python equality, the structured copy,
the legacy conversion and the merged final_result; every non-dict
analysis value raises at 816-817 and lands in the outer except. -/
def analyzePageFinal (rt : List Char) (pageNumber : Int) : Except String JVal :=
  match (analyzePageParse rt pageNumber).1 with
  | .obj fs =>
    let fs :=
      if !objHas "page_number" fs
         || !pyEq (objGetD "page_number" fs .null) (.num false (mkRat pageNumber 1)) then
        objSet "page_number" (.num false (mkRat pageNumber 1)) fs
      else fs
    match convertPageAnalysisToLegacy fs pageNumber with
    | .error e => .error e
    | .ok legacy => .ok (.obj (objSet "structured_analysis" (.obj fs) legacy))
  | _ => .error "TypeError: non-dict analysis"

/-- The fixed guard response of main.py 722-757 for an empty or too-short
response text with no extraction error details. -/
def shortResponseResult (pageNumber : Int) : JVal :=
  let emsg := "Could not extract text from Gemini response. Response structure may have changed or content was filtered."
  let comp := fun (m : Nat) => JVal.obj
    [("points", .num false 0), ("max", .num false (mkRat m 1)),
     ("comment", .str "Unable to analyze - API response issue")]
  .obj [("page_number", .num false (mkRat pageNumber 1)),
        ("skip_analysis", .bool false),
        ("page_type", .str "Analysis Error"),
        ("feedback", .str ("Unable to extract response from Gemini API for page "
                           ++ toString pageNumber ++ ". " ++ emsg)),
        ("error", .str emsg),
        ("error_details", .null),
        ("score_breakdown", .obj (truncScoreFields.map (fun p => (p.1, comp p.2))))]

/-- The error_result record of the outer except (main.py 840-846). -/
def analyzeErrorResult (pageNumber : Int) (e : String) : JVal :=
  .obj [("page_number", .num false (mkRat pageNumber 1)),
        ("skip_analysis", .bool true),
        ("page_type", .str "Unknown (error)"),
        ("skip_reason", .str ("Error during analysis: " ++ e)),
        ("error", .str e)]

/-- Embedding of the response assembly of analyze_single_page (main.py
722-866) from the extracted response text on: the short-response guard, the
parse ladder and conversion, the success return at 863-866 and the except
return at 856-861. The used_fallback flag computed by the ladder is not
consulted anywhere here. -/
def analyzeSinglePageResponse (responseText : String) (pageNumber : Int) : JVal :=
  if responseText.toList.isEmpty || (pyStripL responseText.toList).length < 10 then
    .obj [("status", .str "completed"), ("result", shortResponseResult pageNumber)]
  else
    match analyzePageFinal responseText.toList pageNumber with
    | .ok finalResult => .obj [("status", .str "completed"), ("result", finalResult)]
    | .error e =>
      .obj [("status", .str "error"),
            ("page_number", .num false (mkRat pageNumber 1)),
            ("error", .str e),
            ("result", analyzeErrorResult pageNumber e)]

/-- The keys of the "result" member of a response object. -/
def resultFieldKeys (j : JVal) : List String :=
  match j with
  | .obj fs => topKeys (objGetD "result" fs .null)
  | _ => []

theorem convertLegacy_keys (fs : List (String × JVal)) (pn : Int) (l : List (String × JVal))
    (h : convertPageAnalysisToLegacy fs pn = .ok l) :
    l.map Prod.fst = ["page_number", "skip_analysis", "page_type",
                      "extracted_violations", "feedback", "compelling"] := by
  unfold convertPageAnalysisToLegacy at h
  split at h
  · exact absurd h (by simp)
  · split at h
    · exact absurd h (by simp)
    · split at h
      · exact absurd h (by simp)
      · split at h
        · exact absurd h (by simp)
        · split at h
          · exact absurd h (by simp)
          · split at h
            · exact absurd h (by simp)
            · injection h with h2
              subst h2
              rfl

theorem objSet_keys_not_mem (k : String) (v : JVal) (l : List (String × JVal))
    (hk : k ∉ l.map Prod.fst) :
    (objSet k v l).map Prod.fst = l.map Prod.fst ++ [k] := by
  induction l with
  | nil => rfl
  | cons p rest ih =>
    simp only [List.map_cons, List.mem_cons, not_or] at hk
    rw [objSet]
    rw [if_neg (fun hc => hk.1 (by rw [hc]))]
    simp only [List.map_cons, List.cons_append]
    rw [ih hk.2]

theorem assembleFinalKeys (fs2 : List (String × JVal)) (pn : Int) (f : JVal)
    (h : (match convertPageAnalysisToLegacy fs2 pn with
          | Except.error e => Except.error e
          | Except.ok legacy =>
            Except.ok (JVal.obj (objSet "structured_analysis" (JVal.obj fs2) legacy))) =
         Except.ok f) :
    topKeys f = ["page_number", "skip_analysis", "page_type",
                 "extracted_violations", "feedback", "compelling",
                 "structured_analysis"] := by
  split at h
  · exact absurd h (by simp)
  · rename_i legacy heq
    injection h with h2
    subst h2
    have hkeys := convertLegacy_keys _ _ _ heq
    show (objSet "structured_analysis" _ legacy).map Prod.fst = _
    rw [objSet_keys_not_mem _ _ _ (by rw [hkeys]; decide), hkeys]
    rfl

theorem analyzePageFinal_ok_keys (rt : List Char) (pn : Int) (f : JVal)
    (h : analyzePageFinal rt pn = .ok f) :
    topKeys f = ["page_number", "skip_analysis", "page_type",
                 "extracted_violations", "feedback", "compelling",
                 "structured_analysis"] := by
  unfold analyzePageFinal at h
  split at h
  · rename_i fs hscrut
    split at h
    · exact assembleFinalKeys _ _ _ h
    · exact assembleFinalKeys _ _ _ h
  · exact absurd h (by simp)

/-- A response text on which the resilience ladder resorts to the
brace-slice fallback. -/
def C5demoText : String := "xx \x7b\"page_role\": \"intro\", \"a\": 1"

/-- C5 counterexample: on this input the ladder of analyze_single_page sets
its internal used_fallback flag, yet the returned response carries only the
keys status and result, and the result record carries only the seven legacy
keys plus structured_analysis: no usedFallback (or used_fallback) boolean
accompanies the parsed value anywhere in the return value. -/
theorem C5_used_fallback_counterexample :
    (analyzePageParse C5demoText.toList 3).2 = true ∧
    topKeys (analyzeSinglePageResponse C5demoText 3) = ["status", "result"] ∧
    resultFieldKeys (analyzeSinglePageResponse C5demoText 3) =
      ["page_number", "skip_analysis", "page_type", "extracted_violations",
       "feedback", "compelling", "structured_analysis"] := by
  refine ⟨?_, ?_, ?_⟩ <;> rfl

/-- C5 amended: analyze_single_page computes a used_fallback flag during the
JSON resilience ladder but only logs it; for every response text and page
number the returned value has top-level keys status/result (completed
paths) or status/page_number/error/result (error path), and neither the
top level nor the result record ever contains a used_fallback entry, so
callers cannot audit the repair depth from the return value. -/
theorem C5_used_fallback_amended (t : String) (pn : Int) :
    (topKeys (analyzeSinglePageResponse t pn) = ["status", "result"] ∨
     topKeys (analyzeSinglePageResponse t pn) =
       ["status", "page_number", "error", "result"]) ∧
    "used_fallback" ∉ topKeys (analyzeSinglePageResponse t pn) ∧
    "used_fallback" ∉ resultFieldKeys (analyzeSinglePageResponse t pn) := by
  have hshape : (∃ r, analyzeSinglePageResponse t pn =
        .obj [("status", JVal.str "completed"), ("result", r)] ∧
        (r = shortResponseResult pn ∨ analyzePageFinal t.toList pn = .ok r)) ∨
      (∃ e, analyzeSinglePageResponse t pn =
        .obj [("status", .str "error"), ("page_number", .num false (mkRat pn 1)),
              ("error", .str e), ("result", analyzeErrorResult pn e)]) := by
    unfold analyzeSinglePageResponse
    by_cases hg : (t.toList.isEmpty || decide ((pyStripL t.toList).length < 10)) = true
    · rw [if_pos hg]
      exact Or.inl ⟨_, rfl, Or.inl rfl⟩
    · rw [if_neg hg]
      cases hfin : analyzePageFinal t.toList pn with
      | ok f => exact Or.inl ⟨f, rfl, Or.inr rfl⟩
      | error e => exact Or.inr ⟨e, rfl⟩
  rcases hshape with ⟨r, hresp, hr | hf⟩ | ⟨e, hresp⟩
  · rw [hresp, hr]
    refine ⟨Or.inl rfl, ?_, ?_⟩
    · show "used_fallback" ∉ ["status", "result"]
      decide
    · show "used_fallback" ∉ ["page_number", "skip_analysis", "page_type",
                              "feedback", "error", "error_details", "score_breakdown"]
      decide
  · rw [hresp]
    refine ⟨Or.inl rfl, ?_, ?_⟩
    · show "used_fallback" ∉ ["status", "result"]
      decide
    · have hk := analyzePageFinal_ok_keys _ _ _ hf
      show "used_fallback" ∉ topKeys r
      rw [hk]
      decide
  · rw [hresp]
    refine ⟨Or.inr rfl, ?_, ?_⟩
    · show "used_fallback" ∉ ["status", "page_number", "error", "result"]
      decide
    · show "used_fallback" ∉ ["page_number", "skip_analysis", "page_type",
                              "skip_reason", "error"]
      decide
